import Mathlib

/-!
# Verification of the steam-bot settlement core

Shallow embedding of the trade-bot settlement engine (the `Instance` class
and its utilities).  Database rows become Lean structures, SQL conditional
updates become list transformations, and the unreliable external world
(Steam trading client, OPSkins marketplace) is an explicit environment of
call outcomes.  JavaScript floating-point products with the constants
`1.05` and `0.65` are modelled exactly over integer cent prices
(`a >= sp * 1.05` becomes `21 * sp ≤ 20 * a`, `p <= s * 0.65` becomes
`100 * p ≤ 65 * s`, and `Math.ceil (p * 1.05)` becomes `(21 * p + 19) / 20`);
the modelled behaviour agrees with IEEE doubles away from representation
boundaries.  A JavaScript `TypeError` thrown inside a marketplace callback
leaves the enclosing promise forever unsettled; such runs are modelled by a
distinguished crash outcome.  Sleeps and jitter delays are irrelevant to the
verified properties and are not modelled.
-/

namespace SteamBot

/-- Trade-offer states, from the `TradeOfferState` const enum in
`src/interfaces.ts`. -/
inductive TradeOfferState where
  | Invalid
  | Active
  | Accepted
  | Countered
  | Expired
  | Cancelled
  | Declined
  | InvalidItems
  | CreatedNeedsConfirmation
  | CanceledBySecondFactor
  | InEscrow
  deriving DecidableEq, Repr

/-- `COMPLETABLE_STATES` from `src/interfaces.ts`: prior states for which an
offer-state transition is processed by the reconciler. -/
def COMPLETABLE_STATES : List TradeOfferState :=
  [TradeOfferState.Active, TradeOfferState.CreatedNeedsConfirmation]

/-- The offer states mapped by `completeDeposit` / `completeWithdrawal` to a
permanent failure. -/
def FAIL_STATES : List TradeOfferState :=
  [TradeOfferState.Countered, TradeOfferState.Expired, TradeOfferState.Cancelled,
   TradeOfferState.Declined, TradeOfferState.InvalidItems,
   TradeOfferState.CanceledBySecondFactor]

/-- Terminal offer states of the trading platform: once an offer reaches one
of these, the platform reports no further genuine state change. -/
def TERMINAL_STATES : List TradeOfferState := TradeOfferState.Accepted :: FAIL_STATES

/-- The failure message written by `completeDeposit` / `completeWithdrawal`
for each terminal failure state (the message strings are identical for
deposits and withdrawals in the source); `none` for states that are not
mapped to a failure. -/
def depositFailMsg : TradeOfferState → Option String
  | TradeOfferState.Countered =>
      some "A counter-offer was made. Counter-offers are not currently accepted."
  | TradeOfferState.Expired => some "Trade offer expired"
  | TradeOfferState.Cancelled => some "Trade offer cancelled"
  | TradeOfferState.Declined => some "Trade offer declined"
  | TradeOfferState.InvalidItems => some "Trade contained invalid items"
  | TradeOfferState.CanceledBySecondFactor => some "Trade offer cancelled by second factor"
  | _ => none

/-- A Steam inventory item as consumed by this core: its asset id and its
market hash name. -/
structure InvItem where
  assetid : String
  market_hash_name : String
  deriving DecidableEq, Repr

/-- An entry of `OpskinsPriceData` (`getLowestPrices`): lowest listed price
(cents) and available quantity on the external marketplace. -/
structure OpPrice where
  price : Nat
  quantity : Nat
  deriving DecidableEq, Repr

/-- A `ToListItem` as submitted to `listItems` (fields used by the claims). -/
structure ToListItem where
  assetid : String
  price : Nat
  deriving DecidableEq, Repr

/-- `Math.ceil (p * 1.05)` for an integer cent price `p`: the exact rational
ceiling of `21 * p / 20`. -/
def ceil105 (p : Nat) : Nat := (21 * p + 19) / 20

/-- The listing price computed by `_listItemsToOpskins` (lines 991-1001) for
an item with external price data `op` and cached safe price `sp`:
the safe price under the undervaluation guard
(`op.price <= sp * 0.65`), otherwise the external lowest price times the
scarcity multiplier (`1.05` when `op.quantity <= 12`, else `1`), rounded up. -/
def listPrice (op : OpPrice) (sp : Nat) : Nat :=
  if 100 * op.price ≤ 65 * sp then sp
  else if op.quantity ≤ 12 then ceil105 op.price else op.price

/-- The listing loop of `_listItemsToOpskins` (lines 989-1003).  `opData`
models the fetched `OpskinsPriceData`, `spData` the cached safe prices, and
`limitN` the listing limit.  The source dereferences
`opPriceData[key].quantity` *before* the `!opPriceData[key]` existence
guard, so an item whose name is absent from `opData` raises a `TypeError`
(modelled as `.error ()`); an item absent only from `spData` is skipped by
the guard. -/
def listLoop (opData : List (String × OpPrice)) (spData : List (String × Nat))
    (limitN : Nat) : List InvItem → List ToListItem → Except Unit (List ToListItem)
  | [], acc => Except.ok acc
  | it :: rest, acc =>
    if acc.length < limitN then
      match opData.lookup it.market_hash_name with
      | none => Except.error ()
      | some op =>
        match spData.lookup it.market_hash_name with
        | none => listLoop opData spData limitN rest acc
        | some sp => listLoop opData spData limitN rest (acc ++ [⟨it.assetid, listPrice op sp⟩])
    else Except.ok acc

/-- The error message raised by `_fetchInventoryItems` when the filtered
inventory does not cover every requested asset id. -/
def invMismatchMsg : String := "One or more requested items do not exist in inventory"

/-- `_fetchInventoryItems` (lines 919-950), entered with `retry = true`.
`fetch1` and `fetch2` are the outcomes of the two possible
`getUserInventoryAsync` calls (`.error` models a thrown session error).
The source performs `await this._fetchInventoryItems(..., false)` in the
catch block *without assigning the result to `items`*, so after a failed
first fetch the retried inventory is discarded: the outer `items` stays
empty and, for a non-empty request, the length check raises
`invMismatchMsg` even when the retry succeeded and held every requested
asset. -/
def fetchInventoryItems (assetIds : List String)
    (fetch1 fetch2 : Except String (List InvItem)) : Except String (List InvItem) :=
  match fetch1 with
  | Except.ok inv =>
    let items := inv.filter (fun it => assetIds.contains it.assetid)
    if items.length ≠ assetIds.length then Except.error invMismatchMsg else Except.ok items
  | Except.error _ =>
    match fetch2 with
    | Except.ok inv2 =>
      let items2 := inv2.filter (fun it => assetIds.contains it.assetid)
      if items2.length ≠ assetIds.length then Except.error invMismatchMsg
      else if 0 ≠ assetIds.length then Except.error invMismatchMsg
      else Except.ok []
    | Except.error e2 => Except.error e2

/-- A row of `users`: steam id, optional trade link, balance in minor
currency units. -/
structure UserRow where
  steam_id : Nat
  trade_link_url : Option String
  balance : Int
  deriving DecidableEq, Repr

/-- A row of `trade_deposits` (columns read or written by this core). -/
structure DepositRow where
  id : Nat
  app_id : Nat
  user_steam_id : Nat
  merchant_steam_id : Option Nat
  acknowledged_at : Option Nat
  offered_at : Option Nat
  steam_offer_id : Option Nat
  completed_at : Option Nat
  failed_at : Option Nat
  failure_details : Option String
  total : Nat
  bonus : Nat
  deriving DecidableEq, Repr

/-- A row of `trade_withdrawals`.  `merchant_steam_id` is numeric and uses
the sentinel value `1` for an unclaimed row (`_lockWithdrawal`, line 1275). -/
structure WithdrawalRow where
  id : Nat
  app_id : Nat
  user_steam_id : Nat
  item_names : List String
  merchant_steam_id : Nat
  offered_at : Option Nat
  steam_offer_id : Option Nat
  completed_at : Option Nat
  failed_at : Option Nat
  failure_details : Option String
  cancelled_at : Option Nat
  total : Nat
  deriving DecidableEq, Repr

/-- A row of `trade_deposit_items`. -/
structure DepositItemRow where
  trade_deposit_id : Nat
  steam_asset_id : String
  deriving DecidableEq, Repr

/-- A row of `trade_withdrawal_items`. -/
structure WithdrawalItemRow where
  trade_withdrawal_id : Nat
  steam_asset_id : String
  deriving DecidableEq, Repr

/-- A row of `steam_item_price_cache`; `cents` is
`Math.round (parseFloat base_price_usd * 100)`. -/
structure PriceRow where
  market_hash_name : String
  cents : Nat
  blacklisted : Bool
  deriving DecidableEq, Repr

/-- The relational store visible to this core. -/
structure Db where
  users : List UserRow
  deposits : List DepositRow
  withdrawals : List WithdrawalRow
  depositItems : List DepositItemRow
  withdrawalItems : List WithdrawalItemRow
  priceRows : List PriceRow
  deriving DecidableEq, Repr

/-- The `WHERE` predicate of the deposit claim update (`startDeposit`,
lines 206-212): same id, same app scope, acknowledgment still null. -/
def depClaimP (depositId appId : Nat) (r : DepositRow) : Bool :=
  r.id == depositId && r.app_id == appId && r.acknowledged_at == none

/-- The atomic claim of a deposit (`startDeposit`, lines 206-212):
`UPDATE trade_deposits SET acknowledged_at = now, merchant_steam_id = m
WHERE id = .. AND app_id = .. AND acknowledged_at IS NULL RETURNING *`.
With no matching row the store is untouched and the no-result sentinel
(`none`) is returned; otherwise the matching row (`id` is the primary key)
is updated and returned. -/
def claimDeposit (db : Db) (depositId appId merchant now : Nat) : Db × Option DepositRow :=
  match db.deposits.find? (depClaimP depositId appId) with
  | none => (db, none)
  | some r =>
    ({ db with deposits := db.deposits.map (fun x =>
        if depClaimP depositId appId x then
          { x with acknowledged_at := some now, merchant_steam_id := some merchant } else x) },
     some { r with acknowledged_at := some now, merchant_steam_id := some merchant })

/-- The `WHERE` predicate of the withdrawal lock update (`_lockWithdrawal`,
lines 1274-1277): same id, unclaimed sentinel, total within the current
marketplace balance, same app scope. -/
def wLockP (wid appId : Nat) (bal : Int) (r : WithdrawalRow) : Bool :=
  r.id == wid && r.merchant_steam_id == 1 && decide ((r.total : Int) ≤ bal) && r.app_id == appId

/-- The conditional update of `_lockWithdrawal`:
`UPDATE trade_withdrawals SET merchant_steam_id = m WHERE id = .. AND
merchant_steam_id = 1 AND _total <= balance AND app_id = .. RETURNING id`. -/
def lockWithdrawalUpd (db : Db) (wid merchant appId : Nat) (bal : Int) : Db × Option Nat :=
  match db.withdrawals.find? (wLockP wid appId bal) with
  | none => (db, none)
  | some r =>
    ({ db with withdrawals := db.withdrawals.map (fun x =>
        if wLockP wid appId bal x then { x with merchant_steam_id := merchant } else x) },
     some r.id)

/-- `_lockWithdrawal` (lines 1266-1288): fetch the marketplace balance
(`balRes`, `none` models a `getBalance` error, resolving `false`), run the
conditional update, and grant the lock only when a row was returned and its
id matches the requested withdrawal. -/
def lockWithdrawal (db : Db) (wid merchant appId : Nat) (balRes : Option Int) : Db × Bool :=
  match balRes with
  | none => (db, false)
  | some bal =>
    match lockWithdrawalUpd db wid merchant appId bal with
    | (db2, some rid) => (db2, rid == wid)
    | (db2, none) => (db2, false)

/-- `failDeposit` via `fail` (`utils`, lines 541-565):
`UPDATE trade_deposits SET failed_at = now, failure_details = msg WHERE id = ..`.
Both fields are written together in the single statement. -/
def failDeposit (db : Db) (id now : Nat) (msg : String) : Db :=
  { db with deposits := db.deposits.map (fun r =>
      if r.id == id then { r with failed_at := some now, failure_details := some msg } else r) }

/-- `failWithdrawal` via `fail` (`utils`, lines 541-568). -/
def failWithdrawal (db : Db) (id now : Nat) (msg : String) : Db :=
  { db with withdrawals := db.withdrawals.map (fun r =>
      if r.id == id then { r with failed_at := some now, failure_details := some msg } else r) }

/-- The balance credit of `completeDeposit` (lines 409-417):
`UPDATE users SET balance = balance + total + bonus WHERE steam_id = ..`. -/
def creditUser (db : Db) (sid : Nat) (amount : Int) : Db :=
  { db with users := db.users.map (fun u =>
      if u.steam_id == sid then { u with balance := u.balance + amount } else u) }

/-- The balance of the user row with the given steam id. -/
def getUserBalance (db : Db) (sid : Nat) : Option Int :=
  (db.users.find? (fun u => u.steam_id == sid)).map (fun u => u.balance)

/-- A `sentOfferChanged` event: the offer id, the transition reported by the
trading platform, whether the offer receives items (dispatching to the
deposit handler) and the wall-clock instant of processing. -/
structure OfferEvent where
  offerId : Nat
  oldState : TradeOfferState
  newState : TradeOfferState
  isDeposit : Bool
  time : Nat
  deriving DecidableEq, Repr

/-- `completeDeposit` (lines 321-453) restricted to its store effects.
Transitions whose prior state is not completable are ignored; a missing row
for the offer id makes `db.one` raise, aborting the handler with no write
(modelled as no change).  The `Accepted` branch additionally refreshes the
bot inventory and relists surplus items — external effects with no further
store writes, not modelled here. -/
def completeDepositStep (db : Db) (ev : OfferEvent) : Db :=
  if ev.oldState ∈ COMPLETABLE_STATES then
    match db.deposits.find? (fun r => r.steam_offer_id == some ev.offerId) with
    | none => db
    | some dep =>
      match depositFailMsg ev.newState with
      | some msg => failDeposit db dep.id ev.time msg
      | none =>
        if ev.newState = TradeOfferState.Accepted then
          let db1 := creditUser db dep.user_steam_id ((dep.total : Int) + (dep.bonus : Int))
          { db1 with deposits := db1.deposits.map (fun r =>
              if r.id == dep.id then { r with completed_at := some ev.time } else r) }
        else db
  else db

/-- `completeWithdrawal` (lines 607-693) restricted to its store effects:
same prior-state filter and failure mapping; `Accepted` only marks the
withdrawal completed. -/
def completeWithdrawalStep (db : Db) (ev : OfferEvent) : Db :=
  if ev.oldState ∈ COMPLETABLE_STATES then
    match db.withdrawals.find? (fun r => r.steam_offer_id == some ev.offerId) with
    | none => db
    | some w =>
      match depositFailMsg ev.newState with
      | some msg => failWithdrawal db w.id ev.time msg
      | none =>
        if ev.newState = TradeOfferState.Accepted then
          { db with withdrawals := db.withdrawals.map (fun r =>
              if r.id == w.id then { r with completed_at := some ev.time } else r) }
        else db
  else db

/-- The `sentOfferChanged` handler (lines 108-116): offers with items to
receive go to the deposit handler, the rest to the withdrawal handler.
Both handlers begin with the identical completable-prior-state filter, so
it is hoisted here. -/
def reconcilerStep (db : Db) (ev : OfferEvent) : Db :=
  if ev.oldState ∈ COMPLETABLE_STATES then
    if ev.isDeposit then completeDepositStep db ev else completeWithdrawalStep db ev
  else db

/-- Processing a sequence of offer-state events. -/
def processTrace (db : Db) (evs : List OfferEvent) : Db := evs.foldl reconcilerStep db

/-- A well-formed event trace for one offer: each event reports the actual
previous state of the offer, and the platform never moves an offer out of a
terminal state (it can only re-report it). -/
inductive ValidTrace (oid : Nat) : TradeOfferState → List OfferEvent → Prop where
  | nil (s : TradeOfferState) : ValidTrace oid s []
  | cons (s : TradeOfferState) (ev : OfferEvent) (evs : List OfferEvent)
      (hid : ev.offerId = oid) (hold : ev.oldState = s)
      (hterm : s ∈ TERMINAL_STATES → ev.newState = s)
      (htail : ValidTrace oid ev.newState evs) : ValidTrace oid s (ev :: evs)

/-- External calls made by the workflows.  `op*` calls address the OPSkins
marketplace, `st*` calls the Steam trading platform. -/
inductive Call where
  | opGetBalance
  | opSearch (name : String)
  | opBuy (saleId : Nat)
  | opWithdrawItems
  | opGetInventory
  | stCreateOffer
  | stGetUserDetails
  | stFetchInventory
  | stSendOffer
  | stConfirmOffer
  deriving DecidableEq, Repr

/-- Whether a call addresses the external marketplace. -/
def isMarketplaceCall : Call → Bool
  | Call.opGetBalance => true
  | Call.opSearch _ => true
  | Call.opBuy _ => true
  | Call.opWithdrawItems => true
  | Call.opGetInventory => true
  | _ => false

/-- Counterparty details returned by `getUserDetailsAsync` (fields used). -/
structure UserDetails where
  probation : Bool
  escrowDays : Nat
  deriving DecidableEq, Repr

/-- An `OpskinsSearchResult` (fields used by `_buyPlaceholderItems`):
listing id, `amount` — the listing price in cents, also the total passed to
`buyItems` and compared against the balance — and the market name. -/
structure SearchResult where
  id : Nat
  amount : Nat
  market_name : String
  deriving DecidableEq, Repr

/-- An `OpskinsBuyReturn` (fields used): the purchased item id and the
remaining marketplace balance. -/
structure BuyReturn where
  new_itemid : Nat
  balance : Int
  deriving DecidableEq, Repr

/-- Environment of one iteration of the purchase loop: the outcomes of up
to three `_searchOpskins` attempts (`none` models a thrown search error)
and of `_buyOpskinsItem` on the candidate listings 0, 1, 2 (`none` models a
thrown purchase error). -/
structure ItemEnv where
  search1 : Option (List SearchResult)
  search2 : Option (List SearchResult)
  search3 : Option (List SearchResult)
  buy : Nat → Option BuyReturn

/-- The search-results list actually obtained for an item: the first
successful of the three attempts (lines 732-752). -/
def effSearch (e : ItemEnv) : Option (List SearchResult) :=
  match e.search1 with
  | some r => some r
  | none =>
    match e.search2 with
    | some r => some r
    | none => e.search3

/-- How many `_searchOpskins` calls the attempt chain makes. -/
def searchAttemptCount (e : ItemEnv) : Nat :=
  match e.search1 with
  | some _ => 1
  | none =>
    match e.search2 with
    | some _ => 2
    | none => 3

/-- The marketplace search calls of one loop iteration. -/
def searchCalls (e : ItemEnv) (name : String) : List Call :=
  List.replicate (searchAttemptCount e) (Call.opSearch name)

/-- The purchase-with-fallback chain (lines 760-792): attempt the cheapest
listing, then on a thrown purchase error the 2nd and the 3rd candidate;
each candidate is only attempted when it exists, the balance covers its
price, and its market name matches the requested item.  A candidate whose
precondition fails ends the chain silently (the fallback runs only from the
catch of a thrown purchase). -/
def tryBuy (e : ItemEnv) (results : List SearchResult) (item : String) (bal : Int)
    (purch : List Nat) : Int × List Nat × List Call :=
  match results.head? with
  | none => (bal, purch, [])
  | some r0 =>
    if decide ((r0.amount : Int) ≤ bal) && (r0.market_name == item) then
      match e.buy 0 with
      | some ret => (ret.balance, purch ++ [ret.new_itemid], [Call.opBuy r0.id])
      | none =>
        match results.get? 1 with
        | some r1 =>
          if decide ((r1.amount : Int) ≤ bal) && (r1.market_name == item) then
            match e.buy 1 with
            | some ret => (ret.balance, purch ++ [ret.new_itemid], [Call.opBuy r0.id, Call.opBuy r1.id])
            | none =>
              match results.get? 2 with
              | some r2 =>
                if decide ((r2.amount : Int) ≤ bal) && (r2.market_name == item) then
                  match e.buy 2 with
                  | some ret =>
                      (ret.balance, purch ++ [ret.new_itemid],
                       [Call.opBuy r0.id, Call.opBuy r1.id, Call.opBuy r2.id])
                  | none => (bal, purch, [Call.opBuy r0.id, Call.opBuy r1.id, Call.opBuy r2.id])
                else (bal, purch, [Call.opBuy r0.id, Call.opBuy r1.id])
              | none => (bal, purch, [Call.opBuy r0.id, Call.opBuy r1.id])
          else (bal, purch, [Call.opBuy r0.id])
        | none => (bal, purch, [Call.opBuy r0.id])
    else (bal, purch, [])

/-- Outcome of the purchase loop of `_buyPlaceholderItems`. -/
inductive LoopOut where
  | finished (searches : Nat) (balance : Int) (purchases : List Nat) (calls : List Call)
  | abortEmpty (purchases : List Nat) (calls : List Call)
  | crashed (purchases : List Nat) (calls : List Call)
  deriving Repr

/-- The call trace carried by a loop outcome. -/
def LoopOut.callList : LoopOut → List Call
  | LoopOut.finished _ _ _ cs => cs
  | LoopOut.abortEmpty _ cs => cs
  | LoopOut.crashed _ cs => cs

/-- The purchase loop of `_buyPlaceholderItems` (lines 719-797).  `fuel`
counts the remaining iterations (`count - i` for the loop bound
`i < withdrawalItems.length`); `searches < 80` is the per-batch search-rate
budget (`RPM * 4`).  An item name missing at index `i`, or missing from the
safe-price cache, resolves the whole batch empty.  After a successful
search the anti-manipulation guard
`results[0].amount >= 400 && results[0].amount >= sp * 1.05` aborts the
batch; an empty successful search crashes on the `results[0]` dereference.
The 60-unit pause after 20 searches only affects timing and is not
modelled. -/
def buyLoop (sp : List (String × Nat)) (names : List String) (env : Nat → ItemEnv) :
    Nat → Nat → Nat → Int → List Nat → List Call → LoopOut
  | 0, _, searches, bal, purch, calls => LoopOut.finished searches bal purch calls
  | fuel + 1, i, searches, bal, purch, calls =>
    if 80 ≤ searches then LoopOut.finished searches bal purch calls
    else
      match names.get? i with
      | none => LoopOut.abortEmpty purch calls
      | some item =>
        match sp.lookup item with
        | none => LoopOut.abortEmpty purch calls
        | some spPrice =>
          let e := env i
          let calls2 := calls ++ searchCalls e item
          match effSearch e with
          | none => buyLoop sp names env fuel (i + 1) searches bal purch calls2
          | some results =>
            match results.head? with
            | none => LoopOut.crashed purch calls2
            | some r0 =>
              if 400 ≤ r0.amount ∧ 21 * spPrice ≤ 20 * r0.amount then
                LoopOut.abortEmpty purch calls2
              else
                match tryBuy e results item bal purch with
                | (bal2, purch2, bcalls) =>
                  buyLoop sp names env fuel (i + 1) (searches + 1) bal2 purch2 (calls2 ++ bcalls)

/-- `_getDbCentPrices 0 10000` (lines 1112-1131): select non-blacklisted
cache rows within the price window, return `none` when the query yields no
rows, and keep the entries with a positive cent price. -/
def dbCentPrices (rows : List PriceRow) : Option (List (String × Nat)) :=
  let sel := rows.filter (fun r => !r.blacklisted && r.cents ≤ 1000000)
  if sel = [] then none
  else some ((sel.filter (fun r => 0 < r.cents)).map (fun r => (r.market_hash_name, r.cents)))

/-- The filtering of fetched inventory against the requested names
(lines 841-849): push each inventory item whose name is still wanted and
remove every remaining occurrence of that name from the wanted list. -/
def consumeFilter : List InvItem → List String → List InvItem × List String
  | [], names => ([], names)
  | it :: rest, names =>
    if names.contains it.market_hash_name then
      let next := names.filter (fun n => !(n == it.market_hash_name))
      let res := consumeFilter rest next
      (it :: res.1, res.2)
    else consumeFilter rest names

/-- Environment of `_buyPlaceholderItems` beyond the per-item search/buy
outcomes: the initial `getBalance` result, the outcomes of the
`_withdrawOpskinsItems` attempts (used only for the call trace; the final
success flag is never read by the source), and the outcomes of the Steam
inventory fetches of the withdraw phase (`none` models a thrown fetch
error; a thrown retry is uncaught). -/
structure BuyPhaseEnv where
  opBalance2 : Option Int
  items : Nat → ItemEnv
  w1 : Bool
  w2 : Bool
  w3 : Bool
  invA : Option (List InvItem)
  invAr : Option (List InvItem)
  invB : Option (List InvItem)
  invBr : Option (List InvItem)

/-- A fetch with one refresh-and-retry whose *second* throw is uncaught
(lines 814-823 and 829-838): `none` means the promise never settles. -/
def fetchTwice (a b : Option (List InvItem)) : Option (List InvItem) :=
  match a with
  | some l => some l
  | none => b

/-- Steam inventory-fetch calls of a fetch-with-retry. -/
def fetchCalls2 (a : Option (List InvItem)) : List Call :=
  if a.isSome then [Call.stFetchInventory] else [Call.stFetchInventory, Call.stFetchInventory]

/-- Marketplace withdraw calls of the up-to-three attempt chain
(lines 801-809). -/
def withdrawCalls (a b : Bool) : List Call :=
  if a then [Call.opWithdrawItems]
  else if b then [Call.opWithdrawItems, Call.opWithdrawItems]
  else [Call.opWithdrawItems, Call.opWithdrawItems, Call.opWithdrawItems]

/-- Result of `_buyPlaceholderItems`: the resolved item list (`none` when
the promise never settles), the marketplace purchases made during the run,
and the external calls. -/
structure BuyRun where
  result : Option (List InvItem)
  purchases : List Nat
  calls : List Call

/-- Final filtering and all-or-nothing check of the withdraw phase
(lines 841-857). -/
def finishFilter (items : List InvItem) (names : List String) (count : Nat)
    (purch : List Nat) (calls : List Call) : BuyRun :=
  let filtered := (consumeFilter items names).1
  if filtered = [] ∨ filtered.length ≠ count then ⟨some [], purch, calls⟩
  else ⟨some filtered, purch, calls⟩

/-- The withdraw-to-platform phase of `_buyPlaceholderItems`
(lines 799-857), entered only when every requested item was purchased:
withdraw the purchased ids (up to three attempts), fetch the bot inventory
(one refresh-and-retry; a second throw leaves the promise unsettled), on an
empty inventory withdraw once more and refetch, then filter against the
requested names and resolve empty unless exactly the requested number of
items was matched. -/
def withdrawPhase (env : BuyPhaseEnv) (names : List String) (count : Nat)
    (purch : List Nat) (calls : List Call) : BuyRun :=
  let calls1 := calls ++ withdrawCalls env.w1 env.w2 ++ fetchCalls2 env.invA
  match fetchTwice env.invA env.invAr with
  | none => ⟨none, purch, calls1⟩
  | some items0 =>
    if items0 = [] then
      let calls2 := calls1 ++ [Call.opWithdrawItems] ++ fetchCalls2 env.invB
      match fetchTwice env.invB env.invBr with
      | none => ⟨none, purch, calls2⟩
      | some items1 => finishFilter items1 names count purch calls2
    else finishFilter items0 names count purch calls1

/-- `_buyPlaceholderItems` (lines 695-863).  `names` is
`withdrawal._item_names` and `count` the number of withdrawal item rows.
A missing marketplace key, a failed balance query or an empty price cache
resolve the batch empty; otherwise the purchase loop runs and, when it
finishes with every requested item purchased, the withdraw phase imports
and filters the items — any shortfall resolves the batch empty
(all-or-nothing). -/
def buyPlaceholder (hasKey : Bool) (env : BuyPhaseEnv) (priceRows : List PriceRow)
    (names : List String) (count : Nat) : BuyRun :=
  if hasKey = false then ⟨some [], [], []⟩
  else
    match env.opBalance2 with
    | none => ⟨some [], [], [Call.opGetBalance]⟩
    | some bal0 =>
      match dbCentPrices priceRows with
      | none => ⟨some [], [], [Call.opGetBalance]⟩
      | some sp =>
        match buyLoop sp names env.items count 0 0 bal0 [] [Call.opGetBalance] with
        | LoopOut.abortEmpty purch calls => ⟨some [], purch, calls⟩
        | LoopOut.crashed purch calls => ⟨none, purch, calls⟩
        | LoopOut.finished _ _ purch calls =>
          if purch ≠ [] ∧ purch.length = count then withdrawPhase env names count purch calls
          else ⟨some [], purch, calls⟩

/-- Outcome of one workflow invocation. -/
inductive Outcome where
  | ignored
  | crashed
  | failedMsg (msg : String)
  | offered
  deriving DecidableEq, Repr

/-- A workflow invocation: the resulting store, the outcome, and the
external calls made. -/
structure RunResult where
  db : Db
  outcome : Outcome
  calls : List Call

/-- The profile fetch with one refresh-and-retry (deposits lines 263-281,
withdrawals lines 505-524), with the calls it makes. -/
def udAttempt (a b : Except String UserDetails) : Except String UserDetails × List Call :=
  match a with
  | Except.ok u => (Except.ok u, [Call.stGetUserDetails])
  | Except.error _ => (b, [Call.stGetUserDetails, Call.stGetUserDetails])

/-- Steam inventory-fetch calls of `_fetchInventoryItems`. -/
def fetchCallsE (a : Except String (List InvItem)) : List Call :=
  match a with
  | Except.ok _ => [Call.stFetchInventory]
  | Except.error _ => [Call.stFetchInventory, Call.stFetchInventory]

/-- The probation failure message (identical for deposits and
withdrawals). -/
def probMsg : String :=
  "You are not currently able to trade. Please consult your Steam profile for more information."

/-- The missing-trade-link failure message. -/
def tradeUrlMsg : String := "Please set your Trade URL to proceed"

/-- The withdrawal size-limit failure message
(`MAX_WITHDRAWAL_SIZE = 3`). -/
def countMsg : String := "Please choose a maximum of 3 items."

/-- The sourcing-shortfall failure message (line 579). -/
def sourceFailMsg : String := "Failed to complete withdrawal, please try again later."

/-- Environment of one `startDeposit` invocation. -/
structure DepEnv where
  fetch1 : Except String (List InvItem)
  fetch2 : Except String (List InvItem)
  ud1 : Except String UserDetails
  ud2 : Except String UserDetails
  sendResult : Except String Unit
  offerId : Nat
  now : Nat

/-- `startDeposit` (lines 195-319).  A failed claim is a silent no-op.  A
missing user row or an empty item query makes `db.one` / `db.many` raise
(`crashed`).  Validation failures and a failed transmission write a
permanent failure; a successful transmission records
`offered_at` / `steam_offer_id`. -/
def startDeposit (db : Db) (env : DepEnv) (depId appId merchant : Nat) : RunResult :=
  match claimDeposit db depId appId merchant env.now with
  | (db0, none) => ⟨db0, Outcome.ignored, []⟩
  | (db1, some dep) =>
    match db1.users.find? (fun u => u.steam_id == dep.user_steam_id) with
    | none => ⟨db1, Outcome.crashed, []⟩
    | some user =>
      if user.trade_link_url = none then
        ⟨failDeposit db1 dep.id env.now tradeUrlMsg, Outcome.failedMsg tradeUrlMsg, []⟩
      else
        let ditems := db1.depositItems.filter (fun it => it.trade_deposit_id == depId)
        if ditems = [] then ⟨db1, Outcome.crashed, []⟩
        else
          let assetIds := ditems.map (fun it => it.steam_asset_id)
          let fcalls := fetchCallsE env.fetch1
          match fetchInventoryItems assetIds env.fetch1 env.fetch2 with
          | Except.error m => ⟨failDeposit db1 dep.id env.now m, Outcome.failedMsg m, fcalls⟩
          | Except.ok _ =>
            let cs := fcalls ++ [Call.stCreateOffer]
            match udAttempt env.ud1 env.ud2 with
            | (Except.error m, udcs) =>
              let msg := "We were unable to retrieve your details. Please try creating a new deposit. Error: " ++ m
              ⟨failDeposit db1 dep.id env.now msg, Outcome.failedMsg msg, cs ++ udcs⟩
            | (Except.ok ud, udcs) =>
              let cs2 := cs ++ udcs
              if ud.probation then
                ⟨failDeposit db1 dep.id env.now probMsg, Outcome.failedMsg probMsg, cs2⟩
              else if ud.escrowDays ≠ 0 then
                let msg := "Please enable mobile authenticator and wait for " ++
                  toString ud.escrowDays ++ " days."
                ⟨failDeposit db1 dep.id env.now msg, Outcome.failedMsg msg, cs2⟩
              else
                match env.sendResult with
                | Except.error m =>
                  ⟨failDeposit db1 dep.id env.now m, Outcome.failedMsg m, cs2 ++ [Call.stSendOffer]⟩
                | Except.ok _ =>
                  ⟨{ db1 with deposits := db1.deposits.map (fun r =>
                       if r.id == dep.id then
                         { r with offered_at := some env.now, steam_offer_id := some env.offerId }
                       else r) },
                   Outcome.offered, cs2 ++ [Call.stSendOffer]⟩

/-- Environment of one `startWithdrawal` invocation. -/
structure WEnv where
  lockBalance : Option Int
  ud1 : Except String UserDetails
  ud2 : Except String UserDetails
  hasOpskinsKey : Bool
  buy : BuyPhaseEnv
  sendResult : Except String Unit
  confirmResult : Except String Unit
  offerId : Nat
  now : Nat

/-- `startWithdrawal` (lines 455-605).  The claim is the balance-reserving
lock; a failed lock is a silent no-op.  Validation failures write a
permanent failure.  The withdrawal item rows are loaded with `db.many`,
which raises on zero rows (so the explicit zero-length check in the source
is unreachable); more than `MAX_WITHDRAWAL_SIZE = 3` rows fail permanently
with the size-limit message.  An empty sourcing result writes a permanent
failure and triggers the compensating marketplace-inventory scan
(`_checkOpskinsUserInventory`, first call `getInventory`) and the relisting
attempt (`_listAgainItems`, first call a Steam inventory fetch); an
unsettled sourcing promise leaves the workflow suspended (`crashed`).
Otherwise the offer is transmitted and confirmed, recording
`offered_at` / `steam_offer_id` on success. -/
def startWithdrawal (db : Db) (env : WEnv) (wid appId merchant : Nat) : RunResult :=
  match lockWithdrawal db wid merchant appId env.lockBalance with
  | (db0, false) => ⟨db0, Outcome.ignored, [Call.opGetBalance]⟩
  | (db1, true) =>
    match db1.withdrawals.find? (fun r => r.id == wid && r.merchant_steam_id == merchant) with
    | none => ⟨db1, Outcome.ignored, [Call.opGetBalance]⟩
    | some w =>
      match db1.users.find? (fun u => u.steam_id == w.user_steam_id) with
      | none => ⟨db1, Outcome.crashed, [Call.opGetBalance]⟩
      | some user =>
        if user.trade_link_url = none then
          ⟨failWithdrawal db1 w.id env.now tradeUrlMsg, Outcome.failedMsg tradeUrlMsg,
           [Call.opGetBalance]⟩
        else
          let cs0 := [Call.opGetBalance, Call.stCreateOffer]
          match udAttempt env.ud1 env.ud2 with
          | (Except.error m, udcs) =>
            let msg := "You are not currently able to trade. " ++
              "Please consult your Steam profile for more information. Error: " ++ m
            ⟨failWithdrawal db1 w.id env.now msg, Outcome.failedMsg msg, cs0 ++ udcs⟩
          | (Except.ok ud, udcs) =>
            let cs1 := cs0 ++ udcs
            if ud.probation then
              ⟨failWithdrawal db1 w.id env.now probMsg, Outcome.failedMsg probMsg, cs1⟩
            else if ud.escrowDays ≠ 0 then
              let msg := "You are currently subject to a trade hold for " ++
                toString ud.escrowDays ++ " days."
              ⟨failWithdrawal db1 w.id env.now msg, Outcome.failedMsg msg, cs1⟩
            else
              let witems := db1.withdrawalItems.filter (fun it => it.trade_withdrawal_id == wid)
              if witems = [] then ⟨db1, Outcome.crashed, cs1⟩
              else if 3 < witems.length then
                ⟨failWithdrawal db1 w.id env.now countMsg, Outcome.failedMsg countMsg, cs1⟩
              else
                let run := buyPlaceholder env.hasOpskinsKey env.buy db1.priceRows
                  w.item_names witems.length
                match run.result with
                | none => ⟨db1, Outcome.crashed, cs1 ++ run.calls⟩
                | some [] =>
                  ⟨failWithdrawal db1 w.id env.now sourceFailMsg, Outcome.failedMsg sourceFailMsg,
                   cs1 ++ run.calls ++ [Call.opGetInventory, Call.stFetchInventory]⟩
                | some _ =>
                  match env.sendResult with
                  | Except.error m =>
                    ⟨failWithdrawal db1 w.id env.now m, Outcome.failedMsg m,
                     cs1 ++ run.calls ++ [Call.stSendOffer]⟩
                  | Except.ok _ =>
                    match env.confirmResult with
                    | Except.error m =>
                      ⟨failWithdrawal db1 w.id env.now m, Outcome.failedMsg m,
                       cs1 ++ run.calls ++ [Call.stSendOffer, Call.stConfirmOffer]⟩
                    | Except.ok _ =>
                      ⟨{ db1 with withdrawals := db1.withdrawals.map (fun r =>
                           if r.id == w.id then
                             { r with offered_at := some env.now, steam_offer_id := some env.offerId }
                           else r) },
                       Outcome.offered, cs1 ++ run.calls ++ [Call.stSendOffer, Call.stConfirmOffer]⟩

/-- An operation of this core: a deposit workflow invocation, a withdrawal
workflow invocation, or a reconciler offer-state event.  These are the only
code paths of the core that write trade rows. -/
inductive Op where
  | deposit (env : DepEnv) (depId appId merchant : Nat)
  | withdrawal (env : WEnv) (wid appId merchant : Nat)
  | offerEvent (ev : OfferEvent)

/-- The store effect of one operation. -/
def applyOp (db : Db) : Op → Db
  | Op.deposit env depId appId m => (startDeposit db env depId appId m).db
  | Op.withdrawal env wid appId m => (startWithdrawal db env wid appId m).db
  | Op.offerEvent ev => reconcilerStep db ev

/-- The failure record of the deposit rows with the given id. -/
def depositFailFields (db : Db) (i : Nat) : List (Option Nat × Option String) :=
  (db.deposits.filter (fun r => r.id == i)).map (fun r => (r.failed_at, r.failure_details))

/-- The failure record of the withdrawal rows with the given id. -/
def withdrawalFailFields (db : Db) (i : Nat) : List (Option Nat × Option String) :=
  (db.withdrawals.filter (fun r => r.id == i)).map (fun r => (r.failed_at, r.failure_details))

/-! ## Concrete sample data for witnesses and counterexamples -/

/-- A user with a configured trade link. -/
def sampleUser : UserRow := ⟨10, some "link", 100⟩

/-- A fresh, unclaimed deposit row. -/
def freshDeposit : DepositRow := ⟨1, 7, 10, none, none, none, none, none, none, none, 500, 25⟩

/-- A deposit row already acknowledged by merchant 3. -/
def ackedDeposit : DepositRow :=
  ⟨1, 7, 10, some 3, some 2, none, none, none, none, none, 500, 25⟩

/-- A deposit row whose offer 55 has been transmitted. -/
def offeredDeposit : DepositRow :=
  ⟨1, 7, 10, some 3, some 2, some 3, some 55, none, none, none, 500, 25⟩

/-- A fresh, unclaimed withdrawal row requesting one item. -/
def freshWithdrawal : WithdrawalRow :=
  ⟨9, 7, 10, ["A"], 1, none, none, none, none, none, none, 50⟩

/-- A fresh withdrawal row requesting four items. -/
def fourItemWithdrawal : WithdrawalRow :=
  ⟨9, 7, 10, ["A", "B", "C", "D"], 1, none, none, none, none, none, none, 50⟩

/-- An inert purchase-phase environment: every external call fails. -/
def inertItemEnv : ItemEnv := ⟨none, none, none, fun _ => none⟩

/-- An inert `_buyPlaceholderItems` environment. -/
def inertBuyEnv : BuyPhaseEnv :=
  ⟨none, fun _ => inertItemEnv, true, true, true, none, none, none, none⟩

/-- Store for the C7 scenario: one fresh deposit requesting asset `a1`. -/
def dbC7 : Db := ⟨[sampleUser], [freshDeposit], [], [⟨1, "a1"⟩], [], []⟩

/-- Environment for the C7 scenario: the first inventory fetch throws a
session error, the retry succeeds and returns the requested asset. -/
def envC7 : DepEnv :=
  ⟨Except.error "stale session", Except.ok [⟨"a1", "A"⟩],
   Except.ok ⟨false, 0⟩, Except.ok ⟨false, 0⟩, Except.ok (), 99, 5⟩

/-- Per-item environment for the C1 counterexample: the search finds one
listing of `A` priced 150 cents and the purchase succeeds. -/
def itemEnvC1 : ItemEnv := ⟨some [⟨1, 150, "A"⟩], none, none, fun _ => some ⟨77, 850⟩⟩

/-- `_buyPlaceholderItems` environment for the C1 counterexample. -/
def buyEnvC1 : BuyPhaseEnv :=
  ⟨some 1000, fun _ => itemEnvC1, true, true, true, some [⟨"a9", "A"⟩], none, none, none⟩

/-- Price cache holding safe price 100 cents for `A`. -/
def priceRowsA : List PriceRow := [⟨"A", 100, false⟩]

/-- Per-item environment for the C1 witness: the cheapest listing of `A`
costs 420 cents (at least 400 and at least 1.05 times the safe price). -/
def itemEnvC1w : ItemEnv := ⟨some [⟨2, 420, "A"⟩], none, none, fun _ => some ⟨78, 580⟩⟩

/-- `_buyPlaceholderItems` environment for the C1 witness. -/
def buyEnvC1w : BuyPhaseEnv :=
  ⟨some 1000, fun _ => itemEnvC1w, true, true, true, some [⟨"a9", "A"⟩], none, none, none⟩

/-- Store for the C5 scenario: a four-item withdrawal. -/
def dbC5 : Db :=
  ⟨[sampleUser], [], [fourItemWithdrawal], [],
   [⟨9, "a1"⟩, ⟨9, "a2"⟩, ⟨9, "a3"⟩, ⟨9, "a4"⟩], []⟩

/-- Environment for the C5 scenario: the lock balance query succeeds, the
profile fetch succeeds with no restriction. -/
def envC5 : WEnv :=
  ⟨some 1000, Except.ok ⟨false, 0⟩, Except.ok ⟨false, 0⟩, true, inertBuyEnv,
   Except.ok (), Except.ok (), 99, 5⟩

/-- Per-item environment for the C6 counterexample: the search succeeds but
returns an empty listing array. -/
def itemEnvC6 : ItemEnv := ⟨some [], none, none, fun _ => none⟩

/-- `_buyPlaceholderItems` environment for the C6 counterexample. -/
def buyEnvC6 : BuyPhaseEnv :=
  ⟨some 1000, fun _ => itemEnvC6, true, true, true, none, none, none, none⟩

/-- Store for the C6 scenarios: a one-item withdrawal with a cached safe
price for its name. -/
def dbC6 : Db := ⟨[sampleUser], [], [freshWithdrawal], [], [⟨9, "a1"⟩], priceRowsA⟩

/-- Environment for the C6 counterexample. -/
def envC6 : WEnv :=
  ⟨some 1000, Except.ok ⟨false, 0⟩, Except.ok ⟨false, 0⟩, true, buyEnvC6,
   Except.ok (), Except.ok (), 99, 5⟩

/-- `_buyPlaceholderItems` environment for the C6 witness: every search
attempt throws, so the loop ends with no purchase. -/
def buyEnvC6w : BuyPhaseEnv :=
  ⟨some 1000, fun _ => inertItemEnv, true, true, true, none, none, none, none⟩

/-- Environment for the C6 witness. -/
def envC6w : WEnv :=
  ⟨some 1000, Except.ok ⟨false, 0⟩, Except.ok ⟨false, 0⟩, true, buyEnvC6w,
   Except.ok (), Except.ok (), 99, 5⟩

/-- Store for the C2 and C8 witnesses: deposit 1 was offered as offer 55. -/
def dbC2 : Db := ⟨[sampleUser], [offeredDeposit], [], [], [], []⟩

/-- Store for the C3 witness: deposit 1 is already acknowledged. -/
def dbC3 : Db := ⟨[sampleUser], [ackedDeposit], [], [⟨1, "a1"⟩], [], []⟩

/-- Store for the C3 witness, second part: deposit 1 is fresh. -/
def dbC3b : Db := ⟨[sampleUser], [freshDeposit], [], [⟨1, "a1"⟩], [], []⟩

/-- Store for the C3 witness, third part, and the C4 witness: withdrawal 9
is unclaimed with total 50. -/
def dbC4 : Db := ⟨[sampleUser], [], [freshWithdrawal], [], [⟨9, "a1"⟩], []⟩

/-- Deposit environment for the C3 witness (never consulted on the ignored
path). -/
def envC3 : DepEnv :=
  ⟨Except.error "e", Except.error "e", Except.error "e", Except.error "e",
   Except.error "e", 99, 5⟩

/-- Withdrawal environment for the C4 witness: the marketplace balance is
only 49, below the withdrawal total of 50. -/
def envC4 : WEnv :=
  ⟨some 49, Except.error "e", Except.error "e", true, inertBuyEnv,
   Except.error "e", Except.error "e", 99, 5⟩

/-- The row of `dbC3b` after merchant 5 claims it at time 9. -/
def claimedDepositRow : DepositRow :=
  ⟨1, 7, 10, some 5, some 9, none, none, none, none, none, 500, 25⟩

/-- `dbC3b` after merchant 5 claims deposit 1 at time 9. -/
def dbC3bClaimed : Db := ⟨[sampleUser], [claimedDepositRow], [], [⟨1, "a1"⟩], [], []⟩

/-- `fourItemWithdrawal` after merchant 42 locks it. -/
def lockedFourRow : WithdrawalRow :=
  ⟨9, 7, 10, ["A", "B", "C", "D"], 42, none, none, none, none, none, none, 50⟩

/-- `dbC5` after merchant 42 locks withdrawal 9. -/
def dbC5Locked : Db :=
  ⟨[sampleUser], [], [lockedFourRow], [],
   [⟨9, "a1"⟩, ⟨9, "a2"⟩, ⟨9, "a3"⟩, ⟨9, "a4"⟩], []⟩

/-- `freshWithdrawal` after merchant 42 locks it. -/
def lockedSingleRow : WithdrawalRow :=
  ⟨9, 7, 10, ["A"], 42, none, none, none, none, none, none, 50⟩

/-- `dbC6` after merchant 42 locks withdrawal 9. -/
def dbC6Locked : Db := ⟨[sampleUser], [], [lockedSingleRow], [], [⟨9, "a1"⟩], priceRowsA⟩

/-- The row of `dbC4` after merchant 42 locks it. -/
def lockedWithdrawalRow : WithdrawalRow :=
  ⟨9, 7, 10, ["A"], 42, none, none, none, none, none, none, 50⟩

/-- `dbC4` after merchant 42 locks withdrawal 9. -/
def dbC4Locked : Db := ⟨[sampleUser], [], [lockedWithdrawalRow], [], [⟨9, "a1"⟩], []⟩

/-- A withdrawal row whose offer 66 has been transmitted by merchant 42. -/
def offeredWithdrawalRow : WithdrawalRow :=
  ⟨9, 7, 10, ["A"], 42, some 4, some 66, none, none, none, none, 50⟩

/-- Store for the C8 witness, withdrawal-reconciler part: withdrawal 9 was
offered as offer 66. -/
def dbC8w : Db := ⟨[sampleUser], [], [offeredWithdrawalRow], [], [], []⟩

/-- A deposit row carrying a failure record written by the workflow before
any offer was transmitted: acknowledged, failed, no offer id. -/
def failedDepositRow : DepositRow :=
  ⟨1, 7, 10, some 3, some 2, none, none, none, some 4, some "m", 500, 25⟩

/-- Store for the C8 witness, deposit-immutability part. -/
def dbC8e : Db := ⟨[sampleUser], [failedDepositRow], [], [], [], []⟩

/-- A withdrawal row carrying a failure record written by the workflow
before any offer was transmitted: locked by merchant 42, failed, no offer
id. -/
def failedWithdrawalRow : WithdrawalRow :=
  ⟨9, 7, 10, ["A"], 42, none, none, none, some 4, some "m", none, 50⟩

/-- Store for the C8 witness, withdrawal-immutability part. -/
def dbC8f : Db := ⟨[sampleUser], [], [failedWithdrawalRow], [], [], []⟩

/-- Operation sequence for the C8 witness: a re-invoked deposit workflow, a
re-invoked withdrawal workflow and two reconciler events. -/
def opsC8 : List Op :=
  [Op.deposit envC3 1 7 5, Op.withdrawal envC4 9 7 5,
   Op.offerEvent ⟨55, TradeOfferState.Active, TradeOfferState.Accepted, true, 6⟩,
   Op.offerEvent ⟨66, TradeOfferState.Active, TradeOfferState.Declined, false, 6⟩]

/-! ## Helper lemmas -/

/-- `List.find?` through a conditional update commutes when the update
preserves the predicate. -/
theorem find?_map_update {α : Type} (p : α → Bool) (f : α → α) (l : List α)
    (hf : ∀ a, p a = true → p (f a) = true) :
    (l.map (fun a => if p a then f a else a)).find? p = (l.find? p).map f := by
  induction l with
  | nil => rfl
  | cons a l ih =>
    cases h : p a with
    | true =>
      rw [List.map_cons, if_pos h, List.find?_cons_of_pos _ (hf a h),
        List.find?_cons_of_pos _ h, Option.map_some']
    | false =>
      have hna : ¬ p a = true := by simp [h]
      rw [List.map_cons, if_neg hna, List.find?_cons_of_neg _ hna,
        List.find?_cons_of_neg _ hna, ih]

/-- `failDeposit` writes `failed_at` and `failure_details` together on
every row with the given id. -/
theorem failDeposit_fields (db : Db) (idd now : Nat) (msg : String) :
    ∀ r ∈ (failDeposit db idd now msg).deposits, r.id = idd →
      r.failed_at = some now ∧ r.failure_details = some msg := by
  intro r hr
  rcases List.mem_map.mp hr with ⟨a, ha, rfl⟩
  by_cases h : a.id = idd
  · intro _
    rw [if_pos (beq_iff_eq.mpr h)]
    exact ⟨rfl, rfl⟩
  · intro hid
    rw [if_neg (by simp [h])] at hid
    exact absurd hid h

/-- `failWithdrawal` writes `failed_at` and `failure_details` together on
every row with the given id. -/
theorem failWithdrawal_fields (db : Db) (idd now : Nat) (msg : String) :
    ∀ r ∈ (failWithdrawal db idd now msg).withdrawals, r.id = idd →
      r.failed_at = some now ∧ r.failure_details = some msg := by
  intro r hr
  rcases List.mem_map.mp hr with ⟨a, ha, rfl⟩
  by_cases h : a.id = idd
  · intro _
    rw [if_pos (beq_iff_eq.mpr h)]
    exact ⟨rfl, rfl⟩
  · intro hid
    rw [if_neg (by simp [h])] at hid
    exact absurd hid h

/-- No terminal state is a completable prior state. -/
theorem terminal_not_completable : ∀ s ∈ TERMINAL_STATES, s ∉ COMPLETABLE_STATES := by decide

/-- Every failure state is terminal. -/
theorem fail_mem_terminal : ∀ s ∈ FAIL_STATES, s ∈ TERMINAL_STATES := by decide

/-- Every failure state has a failure message. -/
theorem failMsg_of_fail_state : ∀ s ∈ FAIL_STATES, ∃ m, depositFailMsg s = some m := by
  intro s hs
  fin_cases hs <;> exact ⟨_, rfl⟩

/-- Along a well-formed trace starting in a terminal state, the reconciler
changes nothing. -/
theorem processTrace_terminal_noop {oid : Nat} {s : TradeOfferState} {evs : List OfferEvent}
    (htr : ValidTrace oid s evs) :
    s ∈ TERMINAL_STATES → ∀ db : Db, processTrace db evs = db := by
  induction htr with
  | nil => intro _ _; rfl
  | cons s ev evs hid hold hterm htail ih =>
    intro hs db
    have hnc : ev.oldState ∉ COMPLETABLE_STATES := by
      rw [hold]; exact terminal_not_completable s hs
    have hstep : reconcilerStep db ev = db := by
      unfold reconcilerStep
      rw [if_neg hnc]
    simp only [processTrace, List.foldl_cons]
    rw [hstep]
    exact ih (by rw [hterm hs]; exact hs) db

/-- Every listing emitted by a successful run of the listing loop comes
from an input item with present external and safe prices and carries the
computed listing price. -/
theorem listLoop_ok_mem (opData : List (String × OpPrice)) (spData : List (String × Nat))
    (limitN : Nat) :
    ∀ (items : List InvItem) (acc out : List ToListItem),
      listLoop opData spData limitN items acc = Except.ok out →
      ∀ x ∈ out, x ∈ acc ∨ ∃ it ∈ items, ∃ op sp,
        opData.lookup it.market_hash_name = some op ∧
        spData.lookup it.market_hash_name = some sp ∧
        x = ⟨it.assetid, listPrice op sp⟩ := by
  intro items
  induction items with
  | nil =>
    intro acc out h x hx
    simp only [listLoop, Except.ok.injEq] at h
    subst h
    exact Or.inl hx
  | cons it rest ih =>
    intro acc out h x hx
    by_cases hacc : acc.length < limitN
    · cases hop : opData.lookup it.market_hash_name with
      | none => simp [listLoop, hacc, hop] at h
      | some op =>
        cases hsp : spData.lookup it.market_hash_name with
        | none =>
          simp only [listLoop, if_pos hacc, hop, hsp] at h
          rcases ih acc out h x hx with h1 | ⟨a, ha, op2, sp2, h2, h3, h4⟩
          · exact Or.inl h1
          · exact Or.inr ⟨a, List.mem_cons_of_mem _ ha, op2, sp2, h2, h3, h4⟩
        | some sp =>
          simp only [listLoop, if_pos hacc, hop, hsp] at h
          rcases ih _ out h x hx with h1 | ⟨a, ha, op2, sp2, h2, h3, h4⟩
          · rcases List.mem_append.mp h1 with h2 | h2
            · exact Or.inl h2
            · refine Or.inr ⟨it, List.mem_cons_self _ _, op, sp, hop, hsp, ?_⟩
              simpa using h2
          · exact Or.inr ⟨a, List.mem_cons_of_mem _ ha, op2, sp2, h2, h3, h4⟩
    · simp only [listLoop, if_neg hacc, Except.ok.injEq] at h
      subst h
      exact Or.inl hx

/-- Outside the undervaluation case the computed listing price is at most
the rounded-up 1.05 multiple of the external price. -/
theorem listPrice_le_ceil (op : OpPrice) (sp : Nat) (h : ¬ 100 * op.price ≤ 65 * sp) :
    listPrice op sp ≤ ceil105 op.price := by
  unfold listPrice
  rw [if_neg h]
  by_cases hq : op.quantity ≤ 12
  · rw [if_pos hq]
  · rw [if_neg hq]
    unfold ceil105
    rw [Nat.le_div_iff_mul_le (by norm_num)]
    omega

/-- A map whose update preserves the key and fixes every row with key `i`
commutes away under a filter on key `i`. -/
theorem filter_key_map {α : Type} (key : α → Nat) (f : α → α) (i : Nat)
    (hid : ∀ r, key (f r) = key r) (hf : ∀ r, key r = i → f r = r) :
    ∀ l : List α, (l.map f).filter (fun r => key r == i) = l.filter (fun r => key r == i)
  | [] => rfl
  | x :: l => by
    rw [List.map_cons, List.filter_cons, List.filter_cons]
    have hrec := filter_key_map key f i hid hf l
    by_cases hx : key x = i
    · rw [hf x hx, hrec]
    · have h1 : (key (f x) == i) = false := by
        rw [hid x]
        exact beq_eq_false_iff_ne.mpr hx
      have h2 : (key x == i) = false := beq_eq_false_iff_ne.mpr hx
      rw [h1, h2]
      simp only [Bool.false_eq_true, if_false]
      exact hrec

/-- A conditional update whose predicate pins the key to `j ≠ i` leaves the
rows with key `i` untouched. -/
theorem map_updP_filter_ne {α : Type} (key : α → Nat) (p : α → Bool) (g : α → α) (j i : Nat)
    (hne : j ≠ i) (hg : ∀ r, key (g r) = key r)
    (hpj : ∀ r, p r = true → key r = j) :
    ∀ l : List α, (l.map (fun r => if p r then g r else r)).filter (fun r => key r == i) =
      l.filter (fun r => key r == i) :=
  filter_key_map key _ i
    (fun r => by
      by_cases h : p r = true
      · rw [if_pos h]
        exact hg r
      · rw [if_neg h])
    (fun r hri => if_neg (fun hp => hne ((hpj r hp) ▸ hri)))

/-- A claim that returns the no-result sentinel leaves the store unchanged. -/
theorem claimDeposit_none_eq (db dbx : Db) (a b c d : Nat)
    (h : claimDeposit db a b c d = (dbx, none)) : dbx = db := by
  cases hf : db.deposits.find? (depClaimP a b) with
  | none =>
    simp only [claimDeposit, hf] at h
    injection h with h1 h2
    exact h1.symm
  | some r =>
    simp only [claimDeposit, hf] at h
    injection h with h1 h2
    exact Option.noConfusion h2

/-- The shape of a successful claim: the returned row carries the requested
id, the withdrawal table is untouched, and the deposit table is the
conditional acknowledgment update. -/
theorem claimDeposit_some_shape (db dbx : Db) (a b c d : Nat) (dep : DepositRow)
    (h : claimDeposit db a b c d = (dbx, some dep)) :
    dep.id = a ∧ dbx.withdrawals = db.withdrawals ∧
    dbx.deposits = db.deposits.map (fun x =>
      if depClaimP a b x then
        { x with acknowledged_at := some d, merchant_steam_id := some c } else x) := by
  cases hf : db.deposits.find? (depClaimP a b) with
  | none =>
    simp only [claimDeposit, hf] at h
    injection h with h1 h2
    exact Option.noConfusion h2
  | some r =>
    simp only [claimDeposit, hf] at h
    injection h with h1 h2
    injection h2 with h3
    have hp := List.find?_some hf
    simp only [depClaimP, Bool.and_eq_true, beq_iff_eq] at hp
    refine ⟨?_, ?_, ?_⟩
    · rw [← h3]
      exact hp.1.1
    · rw [← h1]
    · rw [← h1]

/-- A refused lock leaves the store unchanged. -/
theorem lockWithdrawal_false_eq (db dbx : Db) (wid m appId : Nat) (balRes : Option Int)
    (h : lockWithdrawal db wid m appId balRes = (dbx, false)) : dbx = db := by
  cases balRes with
  | none =>
    simp only [lockWithdrawal] at h
    injection h with h1 h2
    exact h1.symm
  | some bal =>
    cases hf : db.withdrawals.find? (wLockP wid appId bal) with
    | none =>
      simp only [lockWithdrawal, lockWithdrawalUpd, hf] at h
      injection h with h1 h2
      exact h1.symm
    | some r =>
      simp only [lockWithdrawal, lockWithdrawalUpd, hf] at h
      injection h with h1 h2
      have hp := List.find?_some hf
      simp only [wLockP, Bool.and_eq_true, beq_iff_eq, decide_eq_true_eq] at hp
      rw [hp.1.1.1] at h2
      simp at h2

/-- The shape of a granted lock: the deposit table is untouched and the
withdrawal table is the conditional merchant update for some balance. -/
theorem lockWithdrawal_true_shape (db dbx : Db) (wid m appId : Nat) (balRes : Option Int)
    (h : lockWithdrawal db wid m appId balRes = (dbx, true)) :
    dbx.deposits = db.deposits ∧
    ∃ bal : Int, dbx.withdrawals = db.withdrawals.map (fun x =>
      if wLockP wid appId bal x then { x with merchant_steam_id := m } else x) := by
  cases balRes with
  | none =>
    simp only [lockWithdrawal] at h
    injection h with h1 h2
    exact Bool.noConfusion h2
  | some bal =>
    cases hf : db.withdrawals.find? (wLockP wid appId bal) with
    | none =>
      simp only [lockWithdrawal, lockWithdrawalUpd, hf] at h
      injection h with h1 h2
      exact Bool.noConfusion h2
    | some r =>
      simp only [lockWithdrawal, lockWithdrawalUpd, hf] at h
      injection h with h1 h2
      refine ⟨?_, bal, ?_⟩
      · rw [← h1]
      · rw [← h1]

/-- A deposit workflow invocation on an id all of whose rows are already
acknowledged is a complete no-op. -/
theorem startDeposit_noop_of_acked (db : Db) (env : DepEnv) (depId appId m : Nat)
    (hack : ∀ r ∈ db.deposits, r.id = depId → r.acknowledged_at ≠ none) :
    startDeposit db env depId appId m = ⟨db, Outcome.ignored, []⟩ := by
  have hfind : db.deposits.find? (depClaimP depId appId) = none := by
    rw [List.find?_eq_none]
    intro r hr hp
    simp only [depClaimP, Bool.and_eq_true, beq_iff_eq] at hp
    exact hack r hr hp.1.1 hp.2
  have hcd : claimDeposit db depId appId m env.now = (db, none) := by
    unfold claimDeposit
    rw [hfind]
  simp only [startDeposit, hcd]

/-- A withdrawal workflow invocation on an id none of whose rows still
carries the unclaimed sentinel is a complete no-op after the balance
query. -/
theorem startWithdrawal_noop_of_locked (db : Db) (env : WEnv) (wid appId m : Nat)
    (hlock : ∀ r ∈ db.withdrawals, r.id = wid → r.merchant_steam_id ≠ 1) :
    startWithdrawal db env wid appId m = ⟨db, Outcome.ignored, [Call.opGetBalance]⟩ := by
  cases hb : env.lockBalance with
  | none =>
    have hl : lockWithdrawal db wid m appId env.lockBalance = (db, false) := by
      rw [hb]
      rfl
    simp only [startWithdrawal, hl]
  | some bal =>
    have hfind : db.withdrawals.find? (wLockP wid appId bal) = none := by
      rw [List.find?_eq_none]
      intro r hr hp
      simp only [wLockP, Bool.and_eq_true, beq_iff_eq, decide_eq_true_eq] at hp
      exact hlock r hr hp.1.1.1 hp.1.1.2
    have hl : lockWithdrawal db wid m appId env.lockBalance = (db, false) := by
      rw [hb]
      simp only [lockWithdrawal, lockWithdrawalUpd, hfind]
    simp only [startWithdrawal, hl]

/-- After a successful claim, the store a deposit workflow invocation leaves
behind is the claimed store, a failure write on the claimed row, or the
offered-fields update on the claimed row. -/
theorem startDeposit_shape (db dbx : Db) (env : DepEnv) (depId appId m : Nat)
    (dep : DepositRow)
    (hc : claimDeposit db depId appId m env.now = (dbx, some dep)) :
    (startDeposit db env depId appId m).db = dbx ∨
    (∃ msg, (startDeposit db env depId appId m).db = failDeposit dbx dep.id env.now msg) ∨
    (startDeposit db env depId appId m).db =
      { dbx with deposits := dbx.deposits.map (fun r =>
          if r.id == dep.id then
            { r with offered_at := some env.now, steam_offer_id := some env.offerId }
          else r) } := by
  simp only [startDeposit, hc]
  repeat' split
  all_goals
    first
      | exact Or.inl rfl
      | exact Or.inr (Or.inl ⟨_, rfl⟩)
      | exact Or.inr (Or.inr rfl)

/-- After a granted lock whose re-read finds no row, the workflow stops
with the locked store. -/
theorem startWithdrawal_find_none (db dbx : Db) (env : WEnv) (wid appId m : Nat)
    (hl : lockWithdrawal db wid m appId env.lockBalance = (dbx, true))
    (hw : dbx.withdrawals.find? (fun r => r.id == wid && r.merchant_steam_id == m) = none) :
    (startWithdrawal db env wid appId m).db = dbx := by
  simp only [startWithdrawal, hl, hw]

/-- After a granted lock, the store a withdrawal workflow invocation leaves
behind is the locked store, a failure write on the re-read row, or the
offered-fields update on the re-read row. -/
theorem startWithdrawal_shape (db dbx : Db) (env : WEnv) (wid appId m : Nat)
    (w : WithdrawalRow)
    (hl : lockWithdrawal db wid m appId env.lockBalance = (dbx, true))
    (hw : dbx.withdrawals.find? (fun r => r.id == wid && r.merchant_steam_id == m) = some w) :
    (startWithdrawal db env wid appId m).db = dbx ∨
    (∃ msg, (startWithdrawal db env wid appId m).db = failWithdrawal dbx w.id env.now msg) ∨
    (startWithdrawal db env wid appId m).db =
      { dbx with withdrawals := dbx.withdrawals.map (fun r =>
          if r.id == w.id then
            { r with offered_at := some env.now, steam_offer_id := some env.offerId }
          else r) } := by
  simp only [startWithdrawal, hl, hw]
  repeat' split
  all_goals
    first
      | exact Or.inl rfl
      | exact Or.inr (Or.inl ⟨_, rfl⟩)
      | exact Or.inr (Or.inr rfl)

/-- The row found by the post-lock re-read carries the requested id. -/
theorem find?_wid_merchant (l : List WithdrawalRow) (wid m : Nat) (w : WithdrawalRow)
    (h : l.find? (fun r => r.id == wid && r.merchant_steam_id == m) = some w) :
    w.id = wid := by
  have hp := List.find?_some h
  simp only [Bool.and_eq_true, beq_iff_eq] at hp
  exact hp.1

/-- A deposit workflow invocation never touches the withdrawal table. -/
theorem startDeposit_withdrawals (db : Db) (env : DepEnv) (depId appId m : Nat) :
    (startDeposit db env depId appId m).db.withdrawals = db.withdrawals := by
  cases hc : claimDeposit db depId appId m env.now with
  | mk dbx ro =>
    cases ro with
    | none =>
      have hdbx := claimDeposit_none_eq db dbx depId appId m env.now hc
      simp only [startDeposit, hc, hdbx]
    | some dep =>
      obtain ⟨_, hdw, _⟩ := claimDeposit_some_shape db dbx depId appId m env.now dep hc
      rcases startDeposit_shape db dbx env depId appId m dep hc with hs | ⟨msg, hs⟩ | hs
      · rw [hs]
        exact hdw
      · rw [hs]
        exact hdw
      · rw [hs]
        exact hdw

/-- A withdrawal workflow invocation never touches the deposit table. -/
theorem startWithdrawal_deposits (db : Db) (env : WEnv) (wid appId m : Nat) :
    (startWithdrawal db env wid appId m).db.deposits = db.deposits := by
  cases hl : lockWithdrawal db wid m appId env.lockBalance with
  | mk dbx locked =>
    cases locked with
    | false =>
      have hdbx := lockWithdrawal_false_eq db dbx wid m appId env.lockBalance hl
      simp only [startWithdrawal, hl, hdbx]
    | true =>
      obtain ⟨hdd, bal, hdw⟩ := lockWithdrawal_true_shape db dbx wid m appId env.lockBalance hl
      cases hw : dbx.withdrawals.find? (fun r => r.id == wid && r.merchant_steam_id == m) with
      | none =>
        rw [startWithdrawal_find_none db dbx env wid appId m hl hw]
        exact hdd
      | some w =>
        rcases startWithdrawal_shape db dbx env wid appId m w hl hw with hs | ⟨msg, hs⟩ | hs
        · rw [hs]
          exact hdd
        · rw [hs]
          exact hdd
        · rw [hs]
          exact hdd

/-- A deposit workflow invocation leaves the deposit rows of an id whose
rows are all acknowledged (whenever it targets that id) untouched. -/
theorem startDeposit_untouched (db : Db) (env : DepEnv) (depId appId m i : Nat)
    (hcase : depId = i → ∀ r ∈ db.deposits, r.id = i → r.acknowledged_at ≠ none) :
    (startDeposit db env depId appId m).db.deposits.filter (fun r => r.id == i) =
      db.deposits.filter (fun r => r.id == i) := by
  by_cases hdi : depId = i
  · have hack : ∀ r ∈ db.deposits, r.id = depId → r.acknowledged_at ≠ none := by
      intro r hr hrd
      exact hcase hdi r hr (hdi ▸ hrd)
    rw [startDeposit_noop_of_acked db env depId appId m hack]
  · cases hc : claimDeposit db depId appId m env.now with
    | mk dbx ro =>
      cases ro with
      | none =>
        have hdbx := claimDeposit_none_eq db dbx depId appId m env.now hc
        simp only [startDeposit, hc, hdbx]
      | some dep =>
        obtain ⟨hdid, _, hdd⟩ := claimDeposit_some_shape db dbx depId appId m env.now dep hc
        have hstep1 : dbx.deposits.filter (fun r => r.id == i) =
            db.deposits.filter (fun r => r.id == i) := by
          rw [hdd]
          exact @map_updP_filter_ne DepositRow (fun r => r.id) (depClaimP depId appId)
            (fun x => { x with acknowledged_at := some env.now, merchant_steam_id := some m })
            depId i hdi (fun r => rfl)
            (fun r hp => by
              simp only [depClaimP, Bool.and_eq_true, beq_iff_eq] at hp
              exact hp.1.1)
            db.deposits
        have hne : dep.id ≠ i := by
          rw [hdid]
          exact hdi
        rcases startDeposit_shape db dbx env depId appId m dep hc with hs | ⟨msg, hs⟩ | hs
        · rw [hs]
          exact hstep1
        · rw [hs]
          exact (@map_updP_filter_ne DepositRow (fun r => r.id) (fun r => r.id == dep.id)
            (fun r => { r with failed_at := some env.now, failure_details := some msg })
            dep.id i hne (fun r => rfl) (fun r hp => beq_iff_eq.mp hp)
            dbx.deposits).trans hstep1
        · rw [hs]
          exact (@map_updP_filter_ne DepositRow (fun r => r.id) (fun r => r.id == dep.id)
            (fun r => { r with offered_at := some env.now, steam_offer_id := some env.offerId })
            dep.id i hne (fun r => rfl) (fun r hp => beq_iff_eq.mp hp)
            dbx.deposits).trans hstep1

/-- A withdrawal workflow invocation leaves the withdrawal rows of an id
whose rows are all claimed (whenever it targets that id) untouched. -/
theorem startWithdrawal_untouched (db : Db) (env : WEnv) (wid appId m i : Nat)
    (hcase : wid = i → ∀ r ∈ db.withdrawals, r.id = i → r.merchant_steam_id ≠ 1) :
    (startWithdrawal db env wid appId m).db.withdrawals.filter (fun r => r.id == i) =
      db.withdrawals.filter (fun r => r.id == i) := by
  by_cases hwi : wid = i
  · have hlk : ∀ r ∈ db.withdrawals, r.id = wid → r.merchant_steam_id ≠ 1 := by
      intro r hr hrw
      exact hcase hwi r hr (hwi ▸ hrw)
    rw [startWithdrawal_noop_of_locked db env wid appId m hlk]
  · cases hl : lockWithdrawal db wid m appId env.lockBalance with
    | mk dbx locked =>
      cases locked with
      | false =>
        have hdbx := lockWithdrawal_false_eq db dbx wid m appId env.lockBalance hl
        simp only [startWithdrawal, hl, hdbx]
      | true =>
        obtain ⟨_, bal, hdw⟩ := lockWithdrawal_true_shape db dbx wid m appId env.lockBalance hl
        have hstep1 : dbx.withdrawals.filter (fun r => r.id == i) =
            db.withdrawals.filter (fun r => r.id == i) := by
          rw [hdw]
          exact @map_updP_filter_ne WithdrawalRow (fun r => r.id) (wLockP wid appId bal)
            (fun x => { x with merchant_steam_id := m })
            wid i hwi (fun r => rfl)
            (fun r hp => by
              simp only [wLockP, Bool.and_eq_true, beq_iff_eq, decide_eq_true_eq] at hp
              exact hp.1.1.1)
            db.withdrawals
        cases hw : dbx.withdrawals.find? (fun r => r.id == wid && r.merchant_steam_id == m) with
        | none =>
          rw [startWithdrawal_find_none db dbx env wid appId m hl hw]
          exact hstep1
        | some w =>
          have hwne : w.id ≠ i := by
            rw [find?_wid_merchant dbx.withdrawals wid m w hw]
            exact hwi
          rcases startWithdrawal_shape db dbx env wid appId m w hl hw with hs | ⟨msg, hs⟩ | hs
          · rw [hs]
            exact hstep1
          · rw [hs]
            exact (@map_updP_filter_ne WithdrawalRow (fun r => r.id) (fun r => r.id == w.id)
              (fun r => { r with failed_at := some env.now, failure_details := some msg })
              w.id i hwne (fun r => rfl) (fun r hp => beq_iff_eq.mp hp)
              dbx.withdrawals).trans hstep1
          · rw [hs]
            exact (@map_updP_filter_ne WithdrawalRow (fun r => r.id) (fun r => r.id == w.id)
              (fun r => { r with offered_at := some env.now, steam_offer_id := some env.offerId })
              w.id i hwne (fun r => rfl) (fun r hp => beq_iff_eq.mp hp)
              dbx.withdrawals).trans hstep1

/-- The withdrawal handler of the reconciler never touches the deposit
table. -/
theorem completeWithdrawalStep_deposits (db : Db) (ev : OfferEvent) :
    (completeWithdrawalStep db ev).deposits = db.deposits := by
  simp only [completeWithdrawalStep, failWithdrawal]
  repeat' split
  all_goals rfl

/-- The deposit handler of the reconciler never touches the withdrawal
table. -/
theorem completeDepositStep_withdrawals (db : Db) (ev : OfferEvent) :
    (completeDepositStep db ev).withdrawals = db.withdrawals := by
  simp only [completeDepositStep, failDeposit, creditUser]
  repeat' split
  all_goals rfl

/-- The deposit handler leaves the deposit rows of an id that was never
offered untouched: the handler matches rows by offer id only. -/
theorem completeDepositStep_deposits_filter (db : Db) (ev : OfferEvent) (i : Nat)
    (hno : ∀ r ∈ db.deposits, r.id = i → r.steam_offer_id = none) :
    (completeDepositStep db ev).deposits.filter (fun r => r.id == i) =
      db.deposits.filter (fun r => r.id == i) := by
  by_cases hold : ev.oldState ∈ COMPLETABLE_STATES
  · cases hf : db.deposits.find? (fun r => r.steam_offer_id == some ev.offerId) with
    | none =>
      simp only [completeDepositStep, if_pos hold, hf]
    | some dep =>
      have hmem := List.mem_of_find?_eq_some hf
      have hp := List.find?_some hf
      simp only [beq_iff_eq] at hp
      have hdi : dep.id ≠ i := fun hdi => by
        rw [hno dep hmem hdi] at hp
        exact Option.noConfusion hp
      cases hm : depositFailMsg ev.newState with
      | some msg =>
        simp only [completeDepositStep, if_pos hold, hf, hm]
        exact @map_updP_filter_ne DepositRow (fun r => r.id) (fun r => r.id == dep.id)
          (fun r => { r with failed_at := some ev.time, failure_details := some msg })
          dep.id i hdi (fun r => rfl) (fun r hp2 => beq_iff_eq.mp hp2) db.deposits
      | none =>
        by_cases hacc : ev.newState = TradeOfferState.Accepted
        · simp only [completeDepositStep, if_pos hold, hf, hm, if_pos hacc, creditUser]
          exact @map_updP_filter_ne DepositRow (fun r => r.id) (fun r => r.id == dep.id)
            (fun r => { r with completed_at := some ev.time })
            dep.id i hdi (fun r => rfl) (fun r hp2 => beq_iff_eq.mp hp2) db.deposits
        · simp only [completeDepositStep, if_pos hold, hf, hm, if_neg hacc]
  · simp only [completeDepositStep, if_neg hold]

/-- The withdrawal handler leaves the withdrawal rows of an id that was
never offered untouched. -/
theorem completeWithdrawalStep_withdrawals_filter (db : Db) (ev : OfferEvent) (i : Nat)
    (hno : ∀ r ∈ db.withdrawals, r.id = i → r.steam_offer_id = none) :
    (completeWithdrawalStep db ev).withdrawals.filter (fun r => r.id == i) =
      db.withdrawals.filter (fun r => r.id == i) := by
  by_cases hold : ev.oldState ∈ COMPLETABLE_STATES
  · cases hf : db.withdrawals.find? (fun r => r.steam_offer_id == some ev.offerId) with
    | none =>
      simp only [completeWithdrawalStep, if_pos hold, hf]
    | some w =>
      have hmem := List.mem_of_find?_eq_some hf
      have hp := List.find?_some hf
      simp only [beq_iff_eq] at hp
      have hdi : w.id ≠ i := fun hdi => by
        rw [hno w hmem hdi] at hp
        exact Option.noConfusion hp
      cases hm : depositFailMsg ev.newState with
      | some msg =>
        simp only [completeWithdrawalStep, if_pos hold, hf, hm]
        exact @map_updP_filter_ne WithdrawalRow (fun r => r.id) (fun r => r.id == w.id)
          (fun r => { r with failed_at := some ev.time, failure_details := some msg })
          w.id i hdi (fun r => rfl) (fun r hp2 => beq_iff_eq.mp hp2) db.withdrawals
      | none =>
        by_cases hacc : ev.newState = TradeOfferState.Accepted
        · simp only [completeWithdrawalStep, if_pos hold, hf, hm, if_pos hacc]
          exact @map_updP_filter_ne WithdrawalRow (fun r => r.id) (fun r => r.id == w.id)
            (fun r => { r with completed_at := some ev.time })
            w.id i hdi (fun r => rfl) (fun r hp2 => beq_iff_eq.mp hp2) db.withdrawals
        · simp only [completeWithdrawalStep, if_pos hold, hf, hm, if_neg hacc]
  · simp only [completeWithdrawalStep, if_neg hold]

/-- A reconciler event leaves the deposit rows of a never-offered id
untouched. -/
theorem reconcilerStep_deposits_filter (db : Db) (ev : OfferEvent) (i : Nat)
    (hno : ∀ r ∈ db.deposits, r.id = i → r.steam_offer_id = none) :
    (reconcilerStep db ev).deposits.filter (fun r => r.id == i) =
      db.deposits.filter (fun r => r.id == i) := by
  by_cases hold : ev.oldState ∈ COMPLETABLE_STATES
  · cases hb : ev.isDeposit with
    | false =>
      simp only [reconcilerStep, if_pos hold, hb, Bool.false_eq_true, if_false,
        completeWithdrawalStep_deposits]
    | true =>
      simp only [reconcilerStep, if_pos hold, hb, eq_self_iff_true, if_true]
      exact completeDepositStep_deposits_filter db ev i hno
  · simp only [reconcilerStep, if_neg hold]

/-- A reconciler event leaves the withdrawal rows of a never-offered id
untouched. -/
theorem reconcilerStep_withdrawals_filter (db : Db) (ev : OfferEvent) (i : Nat)
    (hno : ∀ r ∈ db.withdrawals, r.id = i → r.steam_offer_id = none) :
    (reconcilerStep db ev).withdrawals.filter (fun r => r.id == i) =
      db.withdrawals.filter (fun r => r.id == i) := by
  by_cases hold : ev.oldState ∈ COMPLETABLE_STATES
  · cases hb : ev.isDeposit with
    | false =>
      simp only [reconcilerStep, if_pos hold, hb, Bool.false_eq_true, if_false]
      exact completeWithdrawalStep_withdrawals_filter db ev i hno
    | true =>
      simp only [reconcilerStep, if_pos hold, hb, eq_self_iff_true, if_true,
        completeDepositStep_withdrawals]
  · simp only [reconcilerStep, if_neg hold]

/-- Any sequence of operations of the core leaves the deposit rows of an
acknowledged, never-offered id — the state every workflow-written deposit
failure is in — entirely untouched. -/
theorem ops_preserve_failed_deposit (i : Nat) :
    ∀ (ops : List Op) (db : Db),
      (∀ r ∈ db.deposits, r.id = i → r.acknowledged_at ≠ none ∧ r.steam_offer_id = none) →
      (ops.foldl applyOp db).deposits.filter (fun r => r.id == i) =
        db.deposits.filter (fun r => r.id == i)
  | [], _, _ => rfl
  | op :: ops, db, h => by
    have hstep : (applyOp db op).deposits.filter (fun r => r.id == i) =
        db.deposits.filter (fun r => r.id == i) := by
      cases op with
      | deposit env depId appId m =>
        exact startDeposit_untouched db env depId appId m i
          (fun _ r hr hri => (h r hr hri).1)
      | withdrawal env wid appId m =>
        show (startWithdrawal db env wid appId m).db.deposits.filter (fun r => r.id == i) = _
        rw [startWithdrawal_deposits]
      | offerEvent ev =>
        exact reconcilerStep_deposits_filter db ev i (fun r hr hri => (h r hr hri).2)
    have hinv : ∀ r ∈ (applyOp db op).deposits, r.id = i →
        r.acknowledged_at ≠ none ∧ r.steam_offer_id = none := by
      intro r hr hri
      have hmem : r ∈ (applyOp db op).deposits.filter (fun r2 => r2.id == i) :=
        List.mem_filter.mpr ⟨hr, beq_iff_eq.mpr hri⟩
      rw [hstep] at hmem
      exact h r (List.mem_filter.mp hmem).1 hri
    rw [List.foldl_cons, ops_preserve_failed_deposit i ops (applyOp db op) hinv]
    exact hstep

/-- Any sequence of operations of the core leaves the withdrawal rows of a
claimed, never-offered id — the state every workflow-written withdrawal
failure is in — entirely untouched. -/
theorem ops_preserve_failed_withdrawal (i : Nat) :
    ∀ (ops : List Op) (db : Db),
      (∀ r ∈ db.withdrawals, r.id = i → r.merchant_steam_id ≠ 1 ∧ r.steam_offer_id = none) →
      (ops.foldl applyOp db).withdrawals.filter (fun r => r.id == i) =
        db.withdrawals.filter (fun r => r.id == i)
  | [], _, _ => rfl
  | op :: ops, db, h => by
    have hstep : (applyOp db op).withdrawals.filter (fun r => r.id == i) =
        db.withdrawals.filter (fun r => r.id == i) := by
      cases op with
      | deposit env depId appId m =>
        show (startDeposit db env depId appId m).db.withdrawals.filter (fun r => r.id == i) = _
        rw [startDeposit_withdrawals]
      | withdrawal env wid appId m =>
        exact startWithdrawal_untouched db env wid appId m i
          (fun _ r hr hri => (h r hr hri).1)
      | offerEvent ev =>
        exact reconcilerStep_withdrawals_filter db ev i (fun r hr hri => (h r hr hri).2)
    have hinv : ∀ r ∈ (applyOp db op).withdrawals, r.id = i →
        r.merchant_steam_id ≠ 1 ∧ r.steam_offer_id = none := by
      intro r hr hri
      have hmem : r ∈ (applyOp db op).withdrawals.filter (fun r2 => r2.id == i) :=
        List.mem_filter.mpr ⟨hr, beq_iff_eq.mpr hri⟩
      rw [hstep] at hmem
      exact h r (List.mem_filter.mp hmem).1 hri
    rw [List.foldl_cons, ops_preserve_failed_withdrawal i ops (applyOp db op) hinv]
    exact hstep

/-! ## Claims -/

/-- Claim C10: in list-after-acquisition, a free item whose name is absent
from the fetched external price data makes the listing loop dereference
the missing price entry for its quantity before the existence guard runs,
so the routine throws (modelled as `Except.error ()`) instead of skipping
the item; the external-price side of the guard is unreachable. -/
theorem c10_missing_external_price_crashes
    (opData : List (String × OpPrice)) (spData : List (String × Nat)) (limitN : Nat)
    (it : InvItem) (rest : List InvItem) (acc : List ToListItem)
    (hacc : acc.length < limitN)
    (hmiss : opData.lookup it.market_hash_name = none) :
    listLoop opData spData limitN (it :: rest) acc = Except.error () := by
  simp [listLoop, hacc, hmiss]

/-- Witness for C10: a concrete item absent from the external price data
crashes the listing loop. -/
theorem c10_missing_external_price_crashes_witness :
    ([] : List ToListItem).length < 10 ∧
    ([("B", (⟨7, 3⟩ : OpPrice))] : List (String × OpPrice)).lookup "A" = none ∧
    listLoop [("B", ⟨7, 3⟩)] [("A", 5)] 10 [⟨"a1", "A"⟩] [] = Except.error () :=
  ⟨by decide, by decide,
    c10_missing_external_price_crashes [("B", ⟨7, 3⟩)] [("A", 5)] 10 ⟨"a1", "A"⟩ [] []
      (by decide) (by decide)⟩

/-- Claim C9 counterexample: with external lowest price 10 cents, external
quantity 5 and cached safe price 10 cents, the undervaluation condition
fails and the emitted listing price is 11, which strictly exceeds 1.05
times the external lowest price (10.5): the claimed bound
"listed price never exceeds 1.05 times the external lowest price outside
the undervaluation case" is false on the code. -/
theorem c9_counterexample :
    listLoop [("A", (⟨10, 5⟩ : OpPrice))] [("A", 10)] 500 [⟨"a1", "A"⟩] [] =
      Except.ok [⟨"a1", 11⟩] ∧
    ¬ 100 * 10 ≤ 65 * 10 ∧ 21 * 10 < 20 * 11 :=
  ⟨rfl, by decide, by decide⟩

/-- Claim C9 (amended): every item emitted by a successful listing run is
priced at the cached safe price when the external lowest price is at most
65 percent of it, and otherwise at the external lowest price times the
scarcity multiplier (1.05 when the external quantity is at most 12, else
1.0) rounded up; consequently outside the undervaluation case the listed
price never exceeds the rounded-up 1.05 multiple of the external lowest
price, and in the undervaluation case it equals the safe price. -/
theorem c9_amended_list_pricing
    (opData : List (String × OpPrice)) (spData : List (String × Nat))
    (limitN : Nat) (items : List InvItem) (out : List ToListItem)
    (h : listLoop opData spData limitN items [] = Except.ok out) :
    ∀ x ∈ out, ∃ it ∈ items, ∃ op sp,
      opData.lookup it.market_hash_name = some op ∧
      spData.lookup it.market_hash_name = some sp ∧
      x.price = listPrice op sp ∧
      (100 * op.price ≤ 65 * sp → x.price = sp) ∧
      (¬ 100 * op.price ≤ 65 * sp → x.price ≤ ceil105 op.price) := by
  intro x hx
  rcases listLoop_ok_mem opData spData limitN items [] out h x hx with
    h1 | ⟨it, hit, op, sp, hop, hsp, rfl⟩
  · simp at h1
  · refine ⟨it, hit, op, sp, hop, hsp, rfl, ?_, ?_⟩
    · intro hu
      simp [listPrice, if_pos hu]
    · intro hu
      exact listPrice_le_ceil op sp hu

/-- Witness for the amended C9 on a concrete run: one item with external
price 20, quantity 20 and safe price 10 lists at 20. -/
theorem c9_amended_list_pricing_witness :
    listLoop [("B", (⟨20, 20⟩ : OpPrice))] [("B", 10)] 500 [⟨"b1", "B"⟩] [] =
      Except.ok [⟨"b1", 20⟩] ∧
    ∀ x ∈ ([⟨"b1", 20⟩] : List ToListItem), ∃ it ∈ ([⟨"b1", "B"⟩] : List InvItem), ∃ op sp,
      ([("B", (⟨20, 20⟩ : OpPrice))] : List (String × OpPrice)).lookup it.market_hash_name
          = some op ∧
      ([("B", 10)] : List (String × Nat)).lookup it.market_hash_name = some sp ∧
      x.price = listPrice op sp ∧
      (100 * op.price ≤ 65 * sp → x.price = sp) ∧
      (¬ 100 * op.price ≤ 65 * sp → x.price ≤ ceil105 op.price) :=
  ⟨rfl, c9_amended_list_pricing [("B", ⟨20, 20⟩)] [("B", 10)] 500 [⟨"b1", "B"⟩]
    [⟨"b1", 20⟩] rfl⟩

/-- Claim C7 (code bug): the deposit inventory fetch is meant to recover a
stale-session failure with one refresh-and-retry, but the source discards
the retried call's return value (the recursive call in the catch block is
not assigned to `items`), so even when the retry succeeds and returns
every requested asset id the function raises the inventory-mismatch error
and the deposit is failed permanently instead of proceeding.  Concretely:
one requested asset id `a1`, first fetch throws, retry returns exactly the
requested item — yet the result is the mismatch error and `startDeposit`
writes a permanent failure. -/
theorem c7_retry_discarded_bug :
    (([⟨"a1", "A"⟩] : List InvItem).filter
        (fun it2 => (["a1"] : List String).contains it2.assetid)).length = 1 ∧
    fetchInventoryItems ["a1"] (Except.error "stale session") (Except.ok [⟨"a1", "A"⟩]) =
      Except.error invMismatchMsg ∧
    (startDeposit dbC7 envC7 1 7 42).outcome = Outcome.failedMsg invMismatchMsg ∧
    (startDeposit dbC7 envC7 1 7 42).db.deposits.map
        (fun r => (r.failed_at, r.failure_details)) = [(some 5, some invMismatchMsg)] :=
  ⟨rfl, rfl, rfl, rfl⟩

/-- Claim C3: the claim operation is an atomic compare-and-set.  First: a
deposit whose acknowledgment field is no longer null is not matched by the
conditional update — the no-result sentinel is returned, the store is
unchanged, and the workflow returns without making any external call or
creating an offer.  Second: after any successful deposit claim, every
further claim of the same id and app scope returns the sentinel and leaves
the store unchanged, so at most one merchant proceeds.  Third: the same
at-most-once property for the withdrawal lock (whose unclaimed marker is
the sentinel merchant id 1), for rows with unique ids and a genuine
merchant id. -/
theorem c3_claim_compare_and_set :
    (∀ (db : Db) (idd appId m now : Nat),
      (∀ r ∈ db.deposits, r.id = idd → r.acknowledged_at ≠ none) →
      claimDeposit db idd appId m now = (db, none) ∧
      ∀ (env : DepEnv) (m2 : Nat),
        startDeposit db env idd appId m2 = ⟨db, Outcome.ignored, []⟩) ∧
    (∀ (db db1 : Db) (idd appId m1 now : Nat) (r : DepositRow),
      claimDeposit db idd appId m1 now = (db1, some r) →
      ∀ m2 now2, claimDeposit db1 idd appId m2 now2 = (db1, none)) ∧
    (∀ (db db2 : Db) (wid m1 appId : Nat) (bal : Int) (rid : Nat),
      (db.withdrawals.map (fun r => r.id)).Nodup →
      m1 ≠ 1 →
      lockWithdrawalUpd db wid m1 appId bal = (db2, some rid) →
      ∀ (m2 : Nat) (bal2 : Int),
        lockWithdrawalUpd db2 wid m2 appId bal2 = (db2, none)) := by
  refine ⟨?_, ?_, ?_⟩
  · intro db idd appId m now hack
    have hfind : db.deposits.find? (depClaimP idd appId) = none := by
      rw [List.find?_eq_none]
      intro r hr hp
      simp only [depClaimP, Bool.and_eq_true, beq_iff_eq] at hp
      exact hack r hr hp.1.1 hp.2
    have hcd : claimDeposit db idd appId m now = (db, none) := by
      unfold claimDeposit
      rw [hfind]
    refine ⟨hcd, ?_⟩
    intro env m2
    have hcd2 : claimDeposit db idd appId m2 env.now = (db, none) := by
      unfold claimDeposit
      rw [hfind]
    simp only [startDeposit, hcd2]
  · intro db db1 idd appId m1 now r hclaim m2 now2
    unfold claimDeposit at hclaim
    cases hf : db.deposits.find? (depClaimP idd appId) with
    | none => rw [hf] at hclaim; simp at hclaim
    | some r0 =>
      rw [hf] at hclaim
      rw [Prod.mk.injEq] at hclaim
      obtain ⟨hdb1, _⟩ := hclaim
      have hnone : db1.deposits.find? (depClaimP idd appId) = none := by
        rw [← hdb1]
        show (db.deposits.map _).find? _ = none
        rw [List.find?_eq_none]
        intro y hy
        rcases List.mem_map.mp hy with ⟨a, ha, rfl⟩
        by_cases hpa : depClaimP idd appId a
        · rw [if_pos hpa]
          simp [depClaimP]
        · rw [if_neg hpa]
          exact hpa
      unfold claimDeposit
      rw [hnone]
  · intro db db2 wid m1 appId bal rid hnd hm hupd m2 bal2
    unfold lockWithdrawalUpd at hupd
    cases hf : db.withdrawals.find? (wLockP wid appId bal) with
    | none => rw [hf] at hupd; simp at hupd
    | some r0 =>
      rw [hf] at hupd
      rw [Prod.mk.injEq] at hupd
      obtain ⟨hdb2, _⟩ := hupd
      have hr0mem := List.mem_of_find?_eq_some hf
      have hr0p := List.find?_some hf
      have hr0id : r0.id = wid := by
        simp only [wLockP, Bool.and_eq_true, beq_iff_eq] at hr0p
        exact hr0p.1.1.1
      have hnone : db2.withdrawals.find? (wLockP wid appId bal2) = none := by
        rw [← hdb2]
        show (db.withdrawals.map _).find? _ = none
        rw [List.find?_eq_none]
        intro y hy
        rcases List.mem_map.mp hy with ⟨a, ha, rfl⟩
        by_cases hpa : wLockP wid appId bal a
        · rw [if_pos hpa]
          intro hp
          simp only [wLockP, Bool.and_eq_true, beq_iff_eq] at hp
          exact hm hp.1.1.2
        · rw [if_neg hpa]
          intro hp
          have haid : a.id = wid := by
            simp only [wLockP, Bool.and_eq_true, beq_iff_eq] at hp
            exact hp.1.1.1
          have heq : a = r0 :=
            List.inj_on_of_nodup_map hnd ha hr0mem (by rw [haid, hr0id])
          rw [heq] at hpa
          exact hpa hr0p
      unfold lockWithdrawalUpd
      rw [hnone]

/-- Witness for C3 at concrete stores: a re-claim of the acknowledged
deposit of `dbC3` is a sentinel no-op and the workflow ignores it; after
the successful claim producing `dbC3bClaimed`, a second merchant's claim
returns the sentinel; after the successful lock producing `dbC4Locked`, a
second merchant's lock returns the sentinel. -/
theorem c3_claim_compare_and_set_witness :
    (∀ r ∈ dbC3.deposits, r.id = 1 → r.acknowledged_at ≠ none) ∧
    claimDeposit dbC3 1 7 5 9 = (dbC3, none) ∧
    startDeposit dbC3 envC3 1 7 5 = ⟨dbC3, Outcome.ignored, []⟩ ∧
    claimDeposit dbC3bClaimed 1 7 6 10 = (dbC3bClaimed, none) ∧
    lockWithdrawalUpd dbC4Locked 9 43 7 60 = (dbC4Locked, none) := by
  have hyp : ∀ r ∈ dbC3.deposits, r.id = 1 → r.acknowledged_at ≠ none := by decide
  exact ⟨hyp, (c3_claim_compare_and_set.1 dbC3 1 7 5 9 hyp).1,
    (c3_claim_compare_and_set.1 dbC3 1 7 5 9 hyp).2 envC3 5,
    c3_claim_compare_and_set.2.1 dbC3b dbC3bClaimed 1 7 5 9 claimedDepositRow rfl 6 10,
    c3_claim_compare_and_set.2.2 dbC4 dbC4Locked 9 42 7 50 9 (by decide) (by decide) rfl 43 60⟩

/-- Claim C4: the withdrawal lock is granted only when the current
marketplace balance covers the withdrawal total.  First: a granted lock
implies the store held an unclaimed matching row whose total is at most
the fetched balance.  Second: when every row with the requested id has a
total above the balance, the conditional update matches no row, the lock
resolves false with the store unchanged, and the workflow stops after the
balance query. -/
theorem c4_lock_requires_balance :
    (∀ (db db2 : Db) (wid m appId : Nat) (balRes : Option Int),
      lockWithdrawal db wid m appId balRes = (db2, true) →
      ∃ bal r, balRes = some bal ∧ r ∈ db.withdrawals ∧ r.id = wid ∧
        r.merchant_steam_id = 1 ∧ r.app_id = appId ∧ (r.total : Int) ≤ bal) ∧
    (∀ (db : Db) (wid m appId : Nat) (bal : Int),
      (∀ r ∈ db.withdrawals, r.id = wid → bal < (r.total : Int)) →
      lockWithdrawal db wid m appId (some bal) = (db, false) ∧
      ∀ env : WEnv, env.lockBalance = some bal →
        startWithdrawal db env wid appId m = ⟨db, Outcome.ignored, [Call.opGetBalance]⟩) := by
  constructor
  · intro db db2 wid m appId balRes h
    cases balRes with
    | none => simp [lockWithdrawal] at h
    | some bal =>
      refine ⟨bal, ?_⟩
      cases hf : db.withdrawals.find? (wLockP wid appId bal) with
      | none =>
        simp only [lockWithdrawal, lockWithdrawalUpd, hf] at h
        simp at h
      | some r =>
        have hmem := List.mem_of_find?_eq_some hf
        have hp := List.find?_some hf
        simp only [wLockP, Bool.and_eq_true, beq_iff_eq, decide_eq_true_eq] at hp
        exact ⟨r, rfl, hmem, hp.1.1.1, hp.1.1.2, hp.2, hp.1.2⟩
  · intro db wid m appId bal hbal
    have hfind : db.withdrawals.find? (wLockP wid appId bal) = none := by
      rw [List.find?_eq_none]
      intro r hr hp
      simp only [wLockP, Bool.and_eq_true, beq_iff_eq, decide_eq_true_eq] at hp
      exact absurd hp.1.2 (not_le.mpr (hbal r hr hp.1.1.1))
    have hlock : lockWithdrawal db wid m appId (some bal) = (db, false) := by
      simp only [lockWithdrawal, lockWithdrawalUpd, hfind]
    refine ⟨hlock, ?_⟩
    intro env henv
    simp only [startWithdrawal, henv, hlock]

/-- Witness for C4: with a marketplace balance of 49 and a withdrawal
total of 50, the lock is refused and the workflow stops after the balance
query. -/
theorem c4_lock_requires_balance_witness :
    (∀ r ∈ dbC4.withdrawals, r.id = 9 → (49 : Int) < (r.total : Int)) ∧
    lockWithdrawal dbC4 9 42 7 (some 49) = (dbC4, false) ∧
    startWithdrawal dbC4 envC4 9 7 42 = ⟨dbC4, Outcome.ignored, [Call.opGetBalance]⟩ := by
  have hyp : ∀ r ∈ dbC4.withdrawals, r.id = 9 → (49 : Int) < (r.total : Int) := by decide
  exact ⟨hyp, (c4_lock_requires_balance.2 dbC4 9 42 7 49 hyp).1,
    (c4_lock_requires_balance.2 dbC4 9 42 7 49 hyp).2 envC4 rfl⟩

/-- Claim C2: when a deposit's offer reaches `Accepted` from a prior state
in `COMPLETABLE_STATES`, the owning user's balance is credited with the
deposit total plus bonus and the deposit is marked completed; a second
firing of the completion event — whose prior state is then `Accepted`,
which is not completable — is ignored, leaving the store unchanged, so the
credit is applied exactly once. -/
theorem c2_deposit_completion_credits_once (db : Db) (oid t1 : Nat)
    (dep : DepositRow) (u : UserRow) (old : TradeOfferState)
    (hfind : db.deposits.find? (fun r => r.steam_offer_id == some oid) = some dep)
    (huser : db.users.find? (fun r => r.steam_id == dep.user_steam_id) = some u)
    (hold : old ∈ COMPLETABLE_STATES) :
    getUserBalance db dep.user_steam_id = some u.balance ∧
    getUserBalance (reconcilerStep db ⟨oid, old, TradeOfferState.Accepted, true, t1⟩)
        dep.user_steam_id = some (u.balance + dep.total + dep.bonus) ∧
    (∀ r ∈ (reconcilerStep db ⟨oid, old, TradeOfferState.Accepted, true, t1⟩).deposits,
        r.id = dep.id → r.completed_at = some t1) ∧
    (∀ (s2 : TradeOfferState) (t2 : Nat),
      reconcilerStep (reconcilerStep db ⟨oid, old, TradeOfferState.Accepted, true, t1⟩)
        ⟨oid, TradeOfferState.Accepted, s2, true, t2⟩ =
        reconcilerStep db ⟨oid, old, TradeOfferState.Accepted, true, t1⟩) := by
  have hstep : reconcilerStep db ⟨oid, old, TradeOfferState.Accepted, true, t1⟩ =
      { db with
        users := db.users.map (fun x => if x.steam_id == dep.user_steam_id then
          { x with balance := x.balance + ((dep.total : Int) + (dep.bonus : Int)) } else x),
        deposits := db.deposits.map (fun r => if r.id == dep.id then
          { r with completed_at := some t1 } else r) } := by
    simp only [reconcilerStep, completeDepositStep, creditUser, hold, hfind,
      depositFailMsg, if_true, eq_self_iff_true]
  refine ⟨by simp [getUserBalance, huser], ?_, ?_, ?_⟩
  · rw [hstep]
    unfold getUserBalance
    show ((db.users.map _).find? _).map _ = _
    rw [find?_map_update (fun x => x.steam_id == dep.user_steam_id)
      (fun x => { x with balance := x.balance + ((dep.total : Int) + (dep.bonus : Int)) })
      db.users (fun a ha => ha), huser]
    simp [add_assoc]
  · rw [hstep]
    intro r hr hid
    rcases List.mem_map.mp hr with ⟨a, ha, rfl⟩
    by_cases h : a.id = dep.id
    · rw [if_pos (beq_iff_eq.mpr h)]
    · rw [if_neg (by simp [h])] at hid
      exact absurd hid h
  · intro s2 t2
    have hnc : (⟨oid, TradeOfferState.Accepted, s2, true, t2⟩ : OfferEvent).oldState ∉
        COMPLETABLE_STATES := by
      intro hc
      simp [COMPLETABLE_STATES] at hc
    unfold reconcilerStep
    rw [if_neg hnc]

/-- Witness for C2 at a concrete store: completing deposit 1 (total 500,
bonus 25) via offer 55 raises the user balance from 100 to 625 and a
repeated completion event is a no-op. -/
theorem c2_deposit_completion_credits_once_witness :
    dbC2.deposits.find? (fun r => r.steam_offer_id == some 55) = some offeredDeposit ∧
    dbC2.users.find? (fun r => r.steam_id == offeredDeposit.user_steam_id) = some sampleUser ∧
    TradeOfferState.Active ∈ COMPLETABLE_STATES ∧
    getUserBalance (reconcilerStep dbC2
        ⟨55, TradeOfferState.Active, TradeOfferState.Accepted, true, 8⟩) 10 =
      some (sampleUser.balance + offeredDeposit.total + offeredDeposit.bonus) ∧
    reconcilerStep (reconcilerStep dbC2
        ⟨55, TradeOfferState.Active, TradeOfferState.Accepted, true, 8⟩)
        ⟨55, TradeOfferState.Accepted, TradeOfferState.Accepted, true, 9⟩ =
      reconcilerStep dbC2 ⟨55, TradeOfferState.Active, TradeOfferState.Accepted, true, 8⟩ := by
  refine ⟨rfl, rfl, by decide, ?_, ?_⟩
  · exact (c2_deposit_completion_credits_once dbC2 55 8 offeredDeposit sampleUser
      TradeOfferState.Active rfl rfl (by decide)).2.1
  · exact (c2_deposit_completion_credits_once dbC2 55 8 offeredDeposit sampleUser
      TradeOfferState.Active rfl rfl (by decide)).2.2.2 TradeOfferState.Accepted 9

/-- Claim C8: for every trade, `failed_at` and `failure_details` are
write-once — set together in a single update and, once written, never
changed by any subsequent operation of this core.  (1, 2) The only two
failure writers, the deposit and withdrawal fail helpers, set both fields
together on every matched row.  (3, 4) A reconciler failure on either table
is one fail-helper update on the matched row, and along any well-formed
continuation of the offer's trace (the platform never moves an offer out of
a terminal state) no later event changes the store, so the record is
written exactly once.  (5, 6) A workflow-written failure happens strictly
after the claim (resp. the lock) and strictly before any offer id is
recorded, so its row is acknowledged (resp. claimed) and never offered; on
such rows every subsequent sequence of operations — workflow re-invocations
and reconciler events alike — leaves the failure record untouched. -/
theorem c8_failure_record_write_once :
    (∀ (db : Db) (idd t : Nat) (msg : String),
      ∀ r ∈ (failDeposit db idd t msg).deposits, r.id = idd →
        r.failed_at = some t ∧ r.failure_details = some msg) ∧
    (∀ (db : Db) (idd t : Nat) (msg : String),
      ∀ r ∈ (failWithdrawal db idd t msg).withdrawals, r.id = idd →
        r.failed_at = some t ∧ r.failure_details = some msg) ∧
    (∀ (db : Db) (oid : Nat) (dep : DepositRow) (ev : OfferEvent) (evs : List OfferEvent),
      ev.offerId = oid → ev.isDeposit = true →
      db.deposits.find? (fun r => r.steam_offer_id == some oid) = some dep →
      ev.oldState ∈ COMPLETABLE_STATES → ev.newState ∈ FAIL_STATES →
      ValidTrace oid ev.newState evs →
      ∃ msg, depositFailMsg ev.newState = some msg ∧
        reconcilerStep db ev = failDeposit db dep.id ev.time msg ∧
        processTrace (reconcilerStep db ev) evs = reconcilerStep db ev) ∧
    (∀ (db : Db) (oid : Nat) (w : WithdrawalRow) (ev : OfferEvent) (evs : List OfferEvent),
      ev.offerId = oid → ev.isDeposit = false →
      db.withdrawals.find? (fun r => r.steam_offer_id == some oid) = some w →
      ev.oldState ∈ COMPLETABLE_STATES → ev.newState ∈ FAIL_STATES →
      ValidTrace oid ev.newState evs →
      ∃ msg, depositFailMsg ev.newState = some msg ∧
        reconcilerStep db ev = failWithdrawal db w.id ev.time msg ∧
        processTrace (reconcilerStep db ev) evs = reconcilerStep db ev) ∧
    (∀ (i : Nat) (ops : List Op) (db : Db),
      (∀ r ∈ db.deposits, r.id = i → r.acknowledged_at ≠ none ∧ r.steam_offer_id = none) →
      depositFailFields (ops.foldl applyOp db) i = depositFailFields db i) ∧
    (∀ (i : Nat) (ops : List Op) (db : Db),
      (∀ r ∈ db.withdrawals, r.id = i → r.merchant_steam_id ≠ 1 ∧ r.steam_offer_id = none) →
      withdrawalFailFields (ops.foldl applyOp db) i = withdrawalFailFields db i) := by
  refine ⟨?_, ?_, ?_, ?_, ?_, ?_⟩
  · intro db idd t msg
    exact failDeposit_fields db idd t msg
  · intro db idd t msg
    exact failWithdrawal_fields db idd t msg
  · intro db oid dep ev evs hid hdep hfind hold hfail htr
    obtain ⟨msg, hmsg⟩ := failMsg_of_fail_state ev.newState hfail
    have hstep : reconcilerStep db ev = failDeposit db dep.id ev.time msg := by
      simp only [reconcilerStep, completeDepositStep, hold, hdep, hid, hfind, hmsg,
        if_true, eq_self_iff_true]
    exact ⟨msg, hmsg, hstep,
      processTrace_terminal_noop htr (fail_mem_terminal ev.newState hfail) _⟩
  · intro db oid w ev evs hid hdep hfind hold hfail htr
    obtain ⟨msg, hmsg⟩ := failMsg_of_fail_state ev.newState hfail
    have hstep : reconcilerStep db ev = failWithdrawal db w.id ev.time msg := by
      simp only [reconcilerStep, completeWithdrawalStep, hold, hdep, hid, hfind, hmsg,
        if_true, eq_self_iff_true, Bool.false_eq_true, if_false]
    exact ⟨msg, hmsg, hstep,
      processTrace_terminal_noop htr (fail_mem_terminal ev.newState hfail) _⟩
  · intro i ops db h
    unfold depositFailFields
    rw [ops_preserve_failed_deposit i ops db h]
  · intro i ops db h
    unfold withdrawalFailFields
    rw [ops_preserve_failed_withdrawal i ops db h]

/-- Witness for C8: the fail helpers set both fields together on concrete
stores; offer 55 of deposit 1 (countered) and offer 66 of withdrawal 9
(declined) each get a single reconciler failure write that a further
terminal-state event does not change; and a workflow-written deposit and
withdrawal failure record survives a concrete sequence of four subsequent
operations unchanged. -/
theorem c8_failure_record_write_once_witness :
    (∀ r ∈ (failDeposit dbC2 1 3 "gone").deposits, r.id = 1 →
      r.failed_at = some 3 ∧ r.failure_details = some "gone") ∧
    (∀ r ∈ (failWithdrawal dbC8w 9 3 "gone").withdrawals, r.id = 9 →
      r.failed_at = some 3 ∧ r.failure_details = some "gone") ∧
    (∃ msg, depositFailMsg TradeOfferState.Countered = some msg ∧
      reconcilerStep dbC2 ⟨55, TradeOfferState.Active, TradeOfferState.Countered, true, 3⟩ =
        failDeposit dbC2 1 3 msg ∧
      processTrace (reconcilerStep dbC2
          ⟨55, TradeOfferState.Active, TradeOfferState.Countered, true, 3⟩)
          [⟨55, TradeOfferState.Countered, TradeOfferState.Countered, true, 4⟩] =
        reconcilerStep dbC2 ⟨55, TradeOfferState.Active, TradeOfferState.Countered, true, 3⟩) ∧
    (∃ msg, depositFailMsg TradeOfferState.Declined = some msg ∧
      reconcilerStep dbC8w ⟨66, TradeOfferState.Active, TradeOfferState.Declined, false, 3⟩ =
        failWithdrawal dbC8w 9 3 msg ∧
      processTrace (reconcilerStep dbC8w
          ⟨66, TradeOfferState.Active, TradeOfferState.Declined, false, 3⟩)
          [⟨66, TradeOfferState.Declined, TradeOfferState.Declined, false, 4⟩] =
        reconcilerStep dbC8w ⟨66, TradeOfferState.Active, TradeOfferState.Declined, false, 3⟩) ∧
    depositFailFields (opsC8.foldl applyOp dbC8e) 1 = depositFailFields dbC8e 1 ∧
    withdrawalFailFields (opsC8.foldl applyOp dbC8f) 9 = withdrawalFailFields dbC8f 9 := by
  refine ⟨c8_failure_record_write_once.1 dbC2 1 3 "gone",
    c8_failure_record_write_once.2.1 dbC8w 9 3 "gone",
    c8_failure_record_write_once.2.2.1 dbC2 55 offeredDeposit
      ⟨55, TradeOfferState.Active, TradeOfferState.Countered, true, 3⟩
      [⟨55, TradeOfferState.Countered, TradeOfferState.Countered, true, 4⟩]
      rfl rfl rfl (by decide) (by decide)
      (ValidTrace.cons _ _ _ rfl rfl (fun _ => rfl) (ValidTrace.nil _)),
    c8_failure_record_write_once.2.2.2.1 dbC8w 66 offeredWithdrawalRow
      ⟨66, TradeOfferState.Active, TradeOfferState.Declined, false, 3⟩
      [⟨66, TradeOfferState.Declined, TradeOfferState.Declined, false, 4⟩]
      rfl rfl rfl (by decide) (by decide)
      (ValidTrace.cons _ _ _ rfl rfl (fun _ => rfl) (ValidTrace.nil _)),
    c8_failure_record_write_once.2.2.2.2.1 1 opsC8 dbC8e (by decide),
    c8_failure_record_write_once.2.2.2.2.2 9 opsC8 dbC8f (by decide)⟩

/-- The profile-fetch attempt chain makes one or two calls, both to the
trading platform. -/
theorem udAttempt_calls_shape (a b : Except String UserDetails) :
    (udAttempt a b).2 = [Call.stGetUserDetails] ∨
    (udAttempt a b).2 = [Call.stGetUserDetails, Call.stGetUserDetails] := by
  unfold udAttempt
  cases a with
  | error e => right; rfl
  | ok u => left; rfl

/-- Claim C1 counterexample: with cached safe price 100 cents and a
cheapest listing of 150 cents — which exceeds 1.05 times the safe price —
the purchase proceeds and the batch resolves non-empty, because the
source's guard `results[0].amount >= 4 * 100` compares the listing *price*
against 400 cents (the `amount` field is the price passed to `buyItems`
and compared against the balance), not any available quantity, and
150 < 400.  The claimed abort therefore does not happen, whatever the
marketplace quantity is — quantity is not part of the search data this
code consumes. -/
theorem c1_counterexample :
    21 * 100 ≤ 20 * 150 ∧ ¬ 400 ≤ 150 ∧
    (buyPlaceholder true buyEnvC1 priceRowsA ["A"] 1).purchases = [77] ∧
    (buyPlaceholder true buyEnvC1 priceRowsA ["A"] 1).result = some [⟨"a9", "A"⟩] :=
  ⟨by decide, by decide, rfl, rfl⟩

/-- Claim C1 (amended): whenever the purchase loop reaches an item whose
successful search returns a cheapest listing priced at least 400 cents and
at least 1.05 times the cached safe price, the whole batch is aborted with
no purchase for that or any later item; and an aborted loop makes
purchase-and-import return zero items. -/
theorem c1_amended_price_guard :
    (∀ (sp : List (String × Nat)) (names : List String) (env : Nat → ItemEnv)
       (fuel i searches : Nat) (bal : Int) (purch : List Nat) (calls : List Call)
       (item : String) (spPrice : Nat) (results : List SearchResult) (r0 : SearchResult),
      searches < 80 →
      names.get? i = some item →
      sp.lookup item = some spPrice →
      effSearch (env i) = some results →
      results.head? = some r0 →
      400 ≤ r0.amount →
      21 * spPrice ≤ 20 * r0.amount →
      buyLoop sp names env (fuel + 1) i searches bal purch calls =
        LoopOut.abortEmpty purch (calls ++ searchCalls (env i) item)) ∧
    (∀ (env : BuyPhaseEnv) (priceRows : List PriceRow) (names : List String)
       (count : Nat) (bal0 : Int) (sp : List (String × Nat)) (purch : List Nat)
       (calls : List Call),
      env.opBalance2 = some bal0 →
      dbCentPrices priceRows = some sp →
      buyLoop sp names env.items count 0 0 bal0 [] [Call.opGetBalance] =
        LoopOut.abortEmpty purch calls →
      buyPlaceholder true env priceRows names count = ⟨some [], purch, calls⟩) := by
  constructor
  · intro sp names env fuel i searches bal purch calls item spPrice results r0
      hs hn hsp hse hh h4 hg
    have hns : ¬ 80 ≤ searches := by omega
    simp only [buyLoop, if_neg hns, hn, hsp, hse, hh, if_pos (And.intro h4 hg)]
  · intro env priceRows names count bal0 sp purch calls hbal hsp hloop
    simp only [buyPlaceholder, Bool.true_eq_false, if_false, hbal, hsp, hloop]

/-- Witness for the amended C1: a listing of 420 cents against safe price
100 aborts the batch at the first item and the batch returns empty. -/
theorem c1_amended_price_guard_witness :
    (0 : Nat) < 80 ∧
    (["A"] : List String).get? 0 = some "A" ∧
    ([("A", 100)] : List (String × Nat)).lookup "A" = some 100 ∧
    effSearch (buyEnvC1w.items 0) = some [⟨2, 420, "A"⟩] ∧
    ([⟨2, 420, "A"⟩] : List SearchResult).head? = some ⟨2, 420, "A"⟩ ∧
    400 ≤ 420 ∧ 21 * 100 ≤ 20 * 420 ∧
    buyLoop [("A", 100)] ["A"] buyEnvC1w.items 1 0 0 1000 [] [Call.opGetBalance] =
      LoopOut.abortEmpty [] ([Call.opGetBalance] ++ searchCalls (buyEnvC1w.items 0) "A") ∧
    buyPlaceholder true buyEnvC1w priceRowsA ["A"] 1 =
      ⟨some [], [], [Call.opGetBalance] ++ searchCalls (buyEnvC1w.items 0) "A"⟩ := by
  have h1 := c1_amended_price_guard.1 [("A", 100)] ["A"] buyEnvC1w.items 0 0 0 1000 []
    [Call.opGetBalance] "A" 100 [⟨2, 420, "A"⟩] ⟨2, 420, "A"⟩ (by decide) rfl (by decide)
    rfl rfl (by decide) (by decide)
  refine ⟨by decide, rfl, by decide, rfl, rfl, by decide, by decide, h1, ?_⟩
  exact c1_amended_price_guard.2 buyEnvC1w priceRowsA ["A"] 1 1000 [("A", 100)] []
    ([Call.opGetBalance] ++ searchCalls (buyEnvC1w.items 0) "A") rfl rfl h1

/-- Claim C5 counterexample: a withdrawal requesting four items (max 3)
does fail permanently with the count-limit message, but not before a
marketplace call: the balance query made by the claiming lock
(`_lockWithdrawal` calls `getBalance`) precedes the count check, so the
marketplace-call trace of the run is `[opGetBalance]`, not empty. -/
theorem c5_counterexample :
    dbC5.withdrawalItems.filter (fun it => it.trade_withdrawal_id == 9) =
      [⟨9, "a1"⟩, ⟨9, "a2"⟩, ⟨9, "a3"⟩, ⟨9, "a4"⟩] ∧
    (startWithdrawal dbC5 envC5 9 7 42).outcome = Outcome.failedMsg countMsg ∧
    (startWithdrawal dbC5 envC5 9 7 42).calls.filter isMarketplaceCall = [Call.opGetBalance] ∧
    (startWithdrawal dbC5 envC5 9 7 42).calls.filter isMarketplaceCall ≠ [] :=
  ⟨rfl, rfl, rfl, by decide⟩

/-- Claim C5 (amended): a claimed and validated withdrawal whose item
count exceeds the maximum of 3 fails permanently with the message
"Please choose a maximum of 3 items." before any marketplace search or
purchase: the only marketplace call of the run is the balance query made
while claiming the lock. -/
theorem c5_amended_count_limit (db db1 : Db) (env : WEnv) (wid appId merchant : Nat)
    (w : WithdrawalRow) (user : UserRow) (url : String) (ud : UserDetails)
    (udcs : List Call)
    (hlock : lockWithdrawal db wid merchant appId env.lockBalance = (db1, true))
    (hw : db1.withdrawals.find? (fun r => r.id == wid && r.merchant_steam_id == merchant)
        = some w)
    (huser : db1.users.find? (fun u2 => u2.steam_id == w.user_steam_id) = some user)
    (hurl : user.trade_link_url = some url)
    (hud : udAttempt env.ud1 env.ud2 = (Except.ok ud, udcs))
    (hprob : ud.probation = false)
    (hesc : ud.escrowDays = 0)
    (hcount : 3 < (db1.withdrawalItems.filter
        (fun it => it.trade_withdrawal_id == wid)).length) :
    startWithdrawal db env wid appId merchant =
      ⟨failWithdrawal db1 w.id env.now countMsg, Outcome.failedMsg countMsg,
       [Call.opGetBalance, Call.stCreateOffer] ++ udcs⟩ ∧
    ([Call.opGetBalance, Call.stCreateOffer] ++ udcs).filter isMarketplaceCall =
      [Call.opGetBalance] ∧
    (∀ r ∈ (failWithdrawal db1 w.id env.now countMsg).withdrawals, r.id = w.id →
      r.failed_at = some env.now ∧ r.failure_details = some countMsg) := by
  have hne : db1.withdrawalItems.filter (fun it => it.trade_withdrawal_id == wid) ≠ [] := by
    intro he
    rw [he] at hcount
    simp at hcount
  refine ⟨?_, ?_, failWithdrawal_fields db1 w.id env.now countMsg⟩
  · simp only [startWithdrawal, hlock, hw, huser, hurl, hud, hprob, hesc, hne, hcount,
      if_true, if_false, Bool.false_eq_true, ne_eq, not_true_eq_false, not_false_eq_true,
      ite_not, reduceCtorEq, ite_eq_right_iff]
  · rcases udAttempt_calls_shape env.ud1 env.ud2 with h | h <;>
      rw [hud] at h <;> simp only at h <;> rw [h] <;> decide

/-- Witness for the amended C5 at the concrete four-item withdrawal of
`dbC5`. -/
theorem c5_amended_count_limit_witness :
    3 < (dbC5Locked.withdrawalItems.filter
        (fun it => it.trade_withdrawal_id == 9)).length ∧
    startWithdrawal dbC5 envC5 9 7 42 =
      ⟨failWithdrawal dbC5Locked 9 5 countMsg, Outcome.failedMsg countMsg,
       [Call.opGetBalance, Call.stCreateOffer] ++ [Call.stGetUserDetails]⟩ ∧
    (∀ r ∈ (failWithdrawal dbC5Locked 9 5 countMsg).withdrawals, r.id = 9 →
      r.failed_at = some 5 ∧ r.failure_details = some countMsg) := by
  have h := c5_amended_count_limit dbC5 dbC5Locked envC5 9 7 42 lockedFourRow sampleUser
    "link" ⟨false, 0⟩ [Call.stGetUserDetails] rfl rfl rfl rfl rfl rfl rfl (by decide)
  exact ⟨by decide, h.1, h.2.2⟩

/-- The search-attempt chain makes only marketplace search calls. -/
theorem stSendOffer_not_in_searchCalls (e : ItemEnv) (n : String) :
    Call.stSendOffer ∉ searchCalls e n := by
  intro h
  unfold searchCalls at h
  have h2 := List.eq_of_mem_replicate h
  exact absurd h2 (by simp)

/-- The purchase-fallback chain makes only marketplace buy calls. -/
theorem stSendOffer_not_in_tryBuy (e : ItemEnv) (results : List SearchResult)
    (item : String) (bal : Int) (purch : List Nat) :
    Call.stSendOffer ∉ (tryBuy e results item bal purch).2.2 := by
  unfold tryBuy
  repeat' split
  all_goals simp

/-- The purchase loop never transmits a user trade offer. -/
theorem stSendOffer_not_in_buyLoop (sp : List (String × Nat)) (names : List String)
    (env : Nat → ItemEnv) :
    ∀ (fuel i searches : Nat) (bal : Int) (purch : List Nat) (calls : List Call),
      Call.stSendOffer ∉ calls →
      Call.stSendOffer ∉ (buyLoop sp names env fuel i searches bal purch calls).callList := by
  intro fuel
  induction fuel with
  | zero =>
    intro i searches bal purch calls h
    exact h
  | succ fuel ih =>
    intro i searches bal purch calls h
    by_cases hs : 80 ≤ searches
    · simp only [buyLoop, if_pos hs]
      exact h
    · cases hn : names.get? i with
      | none =>
        simp only [buyLoop, if_neg hs, hn]
        exact h
      | some item =>
        cases hsp : sp.lookup item with
        | none =>
          simp only [buyLoop, if_neg hs, hn, hsp]
          exact h
        | some spPrice =>
          cases hse : effSearch (env i) with
          | none =>
            simp only [buyLoop, if_neg hs, hn, hsp, hse]
            apply ih
            intro hc
            rcases List.mem_append.mp hc with h1 | h1
            · exact h h1
            · exact stSendOffer_not_in_searchCalls _ _ h1
          | some results =>
            cases hh : results.head? with
            | none =>
              simp only [buyLoop, if_neg hs, hn, hsp, hse, hh]
              intro hc
              rcases List.mem_append.mp hc with h1 | h1
              · exact h h1
              · exact stSendOffer_not_in_searchCalls _ _ h1
            | some r0 =>
              by_cases hg : 400 ≤ r0.amount ∧ 21 * spPrice ≤ 20 * r0.amount
              · simp only [buyLoop, if_neg hs, hn, hsp, hse, hh, if_pos hg]
                intro hc
                rcases List.mem_append.mp hc with h1 | h1
                · exact h h1
                · exact stSendOffer_not_in_searchCalls _ _ h1
              · rcases hq : tryBuy (env i) results item bal purch with ⟨bal2, purch2, bcalls⟩
                simp only [buyLoop, if_neg hs, hn, hsp, hse, hh, if_neg hg, hq]
                apply ih
                intro hc
                rcases List.mem_append.mp hc with h1 | h1
                · rcases List.mem_append.mp h1 with h2 | h2
                  · exact h h2
                  · exact stSendOffer_not_in_searchCalls _ _ h2
                · have ht := stSendOffer_not_in_tryBuy (env i) results item bal purch
                  rw [hq] at ht
                  exact ht h1

/-- The withdraw phase carries the purchased ids through unchanged. -/
theorem withdrawPhase_purchases (env : BuyPhaseEnv) (names : List String) (count : Nat)
    (purch : List Nat) (calls : List Call) :
    (withdrawPhase env names count purch calls).purchases = purch := by
  simp only [withdrawPhase, finishFilter]
  repeat' split
  all_goals rfl

/-- The withdraw-attempt chain makes only marketplace withdraw calls. -/
theorem stSendOffer_not_in_withdrawCalls (a b : Bool) :
    Call.stSendOffer ∉ withdrawCalls a b := by
  unfold withdrawCalls
  repeat' split
  all_goals simp

/-- An inventory fetch-with-retry makes only Steam inventory calls. -/
theorem stSendOffer_not_in_fetchCalls2 (a : Option (List InvItem)) :
    Call.stSendOffer ∉ fetchCalls2 a := by
  unfold fetchCalls2
  split
  all_goals simp

/-- The first call block of the withdraw phase transmits no offer. -/
theorem stSendOffer_not_in_wdcalls1 (env : BuyPhaseEnv) (calls : List Call)
    (h : Call.stSendOffer ∉ calls) :
    Call.stSendOffer ∉ calls ++ withdrawCalls env.w1 env.w2 ++ fetchCalls2 env.invA := by
  intro hc
  rcases List.mem_append.mp hc with h1 | h1
  · rcases List.mem_append.mp h1 with h2 | h2
    · exact h h2
    · exact stSendOffer_not_in_withdrawCalls env.w1 env.w2 h2
  · exact stSendOffer_not_in_fetchCalls2 env.invA h1

/-- The extended call block of the withdraw phase transmits no offer. -/
theorem stSendOffer_not_in_wdcalls2 (env : BuyPhaseEnv) (calls : List Call)
    (h : Call.stSendOffer ∉ calls) :
    Call.stSendOffer ∉ calls ++ withdrawCalls env.w1 env.w2 ++ fetchCalls2 env.invA ++
      [Call.opWithdrawItems] ++ fetchCalls2 env.invB := by
  intro hc
  rcases List.mem_append.mp hc with h1 | h1
  · rcases List.mem_append.mp h1 with h2 | h2
    · exact stSendOffer_not_in_wdcalls1 env calls h h2
    · simp at h2
  · exact stSendOffer_not_in_fetchCalls2 env.invB h1

/-- The withdraw phase never transmits a user trade offer. -/
theorem stSendOffer_not_in_withdrawPhase (env : BuyPhaseEnv) (names : List String)
    (count : Nat) (purch : List Nat) (calls : List Call)
    (h : Call.stSendOffer ∉ calls) :
    Call.stSendOffer ∉ (withdrawPhase env names count purch calls).calls := by
  simp only [withdrawPhase, finishFilter]
  repeat' split
  all_goals
    first
      | exact stSendOffer_not_in_wdcalls1 env calls h
      | exact stSendOffer_not_in_wdcalls2 env calls h

/-- Purchase-and-import never transmits a user trade offer. -/
theorem stSendOffer_not_in_buyPlaceholder (hasKey : Bool) (env : BuyPhaseEnv)
    (priceRows : List PriceRow) (names : List String) (count : Nat) :
    Call.stSendOffer ∉ (buyPlaceholder hasKey env priceRows names count).calls := by
  cases hk : hasKey with
  | false => simp [buyPlaceholder]
  | true =>
    cases hbal : env.opBalance2 with
    | none => simp [buyPlaceholder, hbal]
    | some bal0 =>
      cases hspd : dbCentPrices priceRows with
      | none => simp [buyPlaceholder, hbal, hspd]
      | some sp =>
        have hbl := stSendOffer_not_in_buyLoop sp names env.items count 0 0 bal0 []
          [Call.opGetBalance] (by simp)
        cases hl : buyLoop sp names env.items count 0 0 bal0 [] [Call.opGetBalance] with
        | abortEmpty p c =>
          rw [hl] at hbl
          simp only [buyPlaceholder, Bool.true_eq_false, if_false, hbal, hspd, hl]
          exact hbl
        | crashed p c =>
          rw [hl] at hbl
          simp only [buyPlaceholder, Bool.true_eq_false, if_false, hbal, hspd, hl]
          exact hbl
        | finished s b p c =>
          rw [hl] at hbl
          simp only [buyPlaceholder, Bool.true_eq_false, if_false, hbal, hspd, hl]
          split
          · exact stSendOffer_not_in_withdrawPhase env names count p c hbl
          · exact hbl

/-- A non-empty purchase-and-import result implies every requested item
was purchased (the all-or-nothing gate of `_buyPlaceholderItems`). -/
theorem buyPlaceholder_result_full (hasKey : Bool) (env : BuyPhaseEnv)
    (priceRows : List PriceRow) (names : List String) (count : Nat)
    (l : List InvItem) (hne : l ≠ [])
    (h : (buyPlaceholder hasKey env priceRows names count).result = some l) :
    (buyPlaceholder hasKey env priceRows names count).purchases.length = count := by
  cases hk : hasKey with
  | false =>
    simp [buyPlaceholder, hk] at h
    exact absurd h hne
  | true =>
    cases hbal : env.opBalance2 with
    | none =>
      simp [buyPlaceholder, hk, hbal] at h
      exact absurd h hne
    | some bal0 =>
      cases hspd : dbCentPrices priceRows with
      | none =>
        simp [buyPlaceholder, hk, hbal, hspd] at h
        exact absurd h hne
      | some sp =>
        cases hl : buyLoop sp names env.items count 0 0 bal0 [] [Call.opGetBalance] with
        | abortEmpty p c =>
          simp [buyPlaceholder, hk, hbal, hspd, hl] at h
          exact absurd h hne
        | crashed p c =>
          simp [buyPlaceholder, hk, hbal, hspd, hl] at h
        | finished s b p c =>
          by_cases hcond : p ≠ [] ∧ p.length = count
          · simp only [buyPlaceholder, Bool.true_eq_false, if_false, hbal, hspd, hl,
              if_pos hcond]
            rw [withdrawPhase_purchases]
            exact hcond.2
          · simp [buyPlaceholder, hk, hbal, hspd, hl, hcond] at h
            exact absurd h hne

/-- Claim C6 counterexample: a run in which the number of successful
purchases (zero) is strictly below the requested count (one), yet the
sourcing step does not return an empty list, no permanent failure is
persisted and no compensating scan is triggered: a search that succeeds
with an *empty* listing array makes the source dereference
`results[0].amount` on `undefined`, the thrown `TypeError` leaves the
sourcing promise unsettled, and the workflow never resumes. -/
theorem c6_counterexample :
    (buyPlaceholder true buyEnvC6 priceRowsA ["A"] 1).purchases.length = 0 ∧
    (0 : Nat) < 1 ∧
    (buyPlaceholder true buyEnvC6 priceRowsA ["A"] 1).result = none ∧
    (startWithdrawal dbC6 envC6 9 7 42).outcome = Outcome.crashed ∧
    (startWithdrawal dbC6 envC6 9 7 42).db.withdrawals.map
      (fun r => (r.failed_at, r.failure_details)) = [(none, none)] ∧
    Call.opGetInventory ∉ (startWithdrawal dbC6 envC6 9 7 42).calls :=
  ⟨rfl, by decide, rfl, rfl, rfl, by decide⟩

/-- Claim C6 (amended): for a claimed and validated withdrawal, whenever
the sourcing routine settles at all and the number of successful
purchases is strictly below the number of requested items, the sourcing
step returns an empty item list, the workflow transmits no offer, a
permanent failure with the sourcing-failure message is persisted, and the
compensating marketplace-inventory scan and the relisting attempt are
triggered. -/
theorem c6_amended_all_or_nothing (db db1 : Db) (env : WEnv) (wid appId merchant : Nat)
    (w : WithdrawalRow) (user : UserRow) (url : String) (ud : UserDetails)
    (udcs : List Call) (witems : List WithdrawalItemRow) (run : BuyRun)
    (hlock : lockWithdrawal db wid merchant appId env.lockBalance = (db1, true))
    (hw : db1.withdrawals.find? (fun r => r.id == wid && r.merchant_steam_id == merchant)
        = some w)
    (huser : db1.users.find? (fun u2 => u2.steam_id == w.user_steam_id) = some user)
    (hurl : user.trade_link_url = some url)
    (hud : udAttempt env.ud1 env.ud2 = (Except.ok ud, udcs))
    (hprob : ud.probation = false)
    (hesc : ud.escrowDays = 0)
    (hwit : db1.withdrawalItems.filter (fun it => it.trade_withdrawal_id == wid) = witems)
    (hne : witems ≠ [])
    (hcount : witems.length ≤ 3)
    (hrun : buyPlaceholder env.hasOpskinsKey env.buy db1.priceRows w.item_names
        witems.length = run)
    (hsettle : run.result ≠ none)
    (hshort : run.purchases.length < witems.length) :
    run.result = some [] ∧
    startWithdrawal db env wid appId merchant =
      ⟨failWithdrawal db1 w.id env.now sourceFailMsg, Outcome.failedMsg sourceFailMsg,
       ([Call.opGetBalance, Call.stCreateOffer] ++ udcs) ++ run.calls ++
         [Call.opGetInventory, Call.stFetchInventory]⟩ ∧
    Call.opGetInventory ∈ (startWithdrawal db env wid appId merchant).calls ∧
    Call.stSendOffer ∉ (startWithdrawal db env wid appId merchant).calls ∧
    (∀ r ∈ (failWithdrawal db1 w.id env.now sourceFailMsg).withdrawals, r.id = w.id →
      r.failed_at = some env.now ∧ r.failure_details = some sourceFailMsg) := by
  have hempty : run.result = some [] := by
    cases hres : run.result with
    | none => exact absurd hres hsettle
    | some l =>
      cases l with
      | nil => rfl
      | cons a as =>
        have hfull := buyPlaceholder_result_full env.hasOpskinsKey env.buy db1.priceRows
          w.item_names witems.length (a :: as) (by simp) (by rw [hrun]; exact hres)
        rw [hrun] at hfull
        omega
  have h3 : ¬ 3 < witems.length := by omega
  have heq : startWithdrawal db env wid appId merchant =
      ⟨failWithdrawal db1 w.id env.now sourceFailMsg, Outcome.failedMsg sourceFailMsg,
       ([Call.opGetBalance, Call.stCreateOffer] ++ udcs) ++ run.calls ++
         [Call.opGetInventory, Call.stFetchInventory]⟩ := by
    simp only [startWithdrawal, hlock, hw, huser, hurl, hud, hprob, hesc, hwit, hne,
      hcount, h3, hrun, hempty, if_true, if_false, Bool.false_eq_true, reduceCtorEq,
      ne_eq, not_false_eq_true, ite_not]
  refine ⟨hempty, heq, ?_, ?_, failWithdrawal_fields db1 w.id env.now sourceFailMsg⟩
  · rw [heq]
    simp
  · rw [heq]
    intro hc
    simp only [List.mem_append] at hc
    rcases hc with ((hc | hc) | hc) | hc
    · simp at hc
    · have hsnd := congrArg Prod.snd hud
      rcases udAttempt_calls_shape env.ud1 env.ud2 with hsh | hsh <;>
        rw [hsh] at hsnd <;> simp only at hsnd <;> rw [← hsnd] at hc <;> simp at hc
    · have hnb := stSendOffer_not_in_buyPlaceholder env.hasOpskinsKey env.buy db1.priceRows
        w.item_names witems.length
      rw [hrun] at hnb
      exact hnb hc
    · simp at hc

/-- Witness for the amended C6: a one-item withdrawal whose marketplace
searches all fail sources zero of one purchases; the batch settles empty,
the workflow records the permanent failure and triggers the compensating
scan, and no offer is transmitted. -/
theorem c6_amended_all_or_nothing_witness :
    (buyPlaceholder true buyEnvC6w priceRowsA ["A"] 1).purchases.length < 1 ∧
    (buyPlaceholder true buyEnvC6w priceRowsA ["A"] 1).result = some [] ∧
    (startWithdrawal dbC6 envC6w 9 7 42).outcome = Outcome.failedMsg sourceFailMsg ∧
    Call.opGetInventory ∈ (startWithdrawal dbC6 envC6w 9 7 42).calls ∧
    Call.stSendOffer ∉ (startWithdrawal dbC6 envC6w 9 7 42).calls := by
  have h := c6_amended_all_or_nothing dbC6 dbC6Locked envC6w 9 7 42 lockedSingleRow
    sampleUser "link" ⟨false, 0⟩ [Call.stGetUserDetails] [⟨9, "a1"⟩]
    (buyPlaceholder true buyEnvC6w priceRowsA ["A"] 1)
    rfl rfl rfl rfl rfl rfl rfl rfl (by decide) (by decide) rfl (by decide) (by decide)
  exact ⟨by decide, h.1, by rw [h.2.1], h.2.2.1, h.2.2.2.1⟩

end SteamBot
